import Mathlib

/-!
The listing-to-bytes pipeline of `ngx_http_autoindex_ext_module.c`.

A shallow embedding of `src/ngx_http_autoindex_ext_module.c`.

Conventions of the embedding

* A byte is a `Nat` (0..255); a byte string (`ngx_str_t`, a C string literal, the
  written part of the response buffer) is a `List Nat`, its `len` is the list length.
* `off_t`, `time_t`, `ngx_int_t`, `ngx_flag_t` are `Int`; `/` and `%` of C are
  `Int.tdiv` and `Int.tmod` (truncation towards zero).
* `size_t` counters (`response_size`, `escape`) are `Nat`.
* The platform is LP64, as on the systems nginx is built for today: `off_t`,
  `ngx_int_t` and `size_t` are all 64 bits wide, so an `off_t` passed for the format
  `%i` is read as it was written.
* Functions of the nginx core that the module calls (`ngx_sprintf`, `ngx_escape_uri`,
  `ngx_strcmp`, `ngx_conf_merge_value`, the directory API) are not part of this
  repository; each is modelled next to its first use and marked as such.
-/

namespace NgxAutoindexExt

/-! ## Byte strings and the literal fragments of the document -/

/-- Bytes of a C string literal (without the terminating NUL), so that
`sizeof(literal) - 1` is `(lit literal).length`. -/
def lit (s : String) : List Nat := s.data.map Char.toNat

/-- The static array `ngx_http_autoindex_ext_header1` (source lines 76-81). -/
def ngx_http_autoindex_ext_header1 : List Nat :=
  lit "<!doctype html>\r\n" ++
  lit "<html lang=\"en\">\r\n" ++
  lit "<head>\r\n" ++
  lit "\t<meta charset=\"utf-8\" />\r\n"

/-- The static array `ngx_http_autoindex_ext_header2` (source lines 82-93). -/
def ngx_http_autoindex_ext_header2 : List Nat :=
  lit "</head>\r\n" ++
  lit "<body>\r\n" ++
  lit "<table>\r\n" ++
  lit "\t<thead>\r\n" ++
  lit "\t\t<tr>\r\n" ++
  lit "\t\t\t<th>Name</th>\r\n" ++
  lit "\t\t\t<th>Size</th>\r\n" ++
  lit "\t\t</tr>\r\n" ++
  lit "\t</thead>\r\n" ++
  lit "\t<tbody>\r\n"

/-- The static array `ngx_http_autoindex_ext_footer` (source lines 94-99). -/
def ngx_http_autoindex_ext_footer : List Nat :=
  lit "\t</tbody>\r\n" ++
  lit "</table>\r\n" ++
  lit "</body>\r\n" ++
  lit "</html>"

/-- The static array `ngx_http_autoindex_ext_back`, the parent-directory row
(source lines 100-105). -/
def ngx_http_autoindex_ext_back : List Nat :=
  lit "\t\t<tr>\r\n" ++
  lit "\t\t\t<td><a href=\"../\">Parent directory/</a></td>\r\n" ++
  lit "\t\t\t<td>-</td>\r\n" ++
  lit "\t\t</tr>\r\n"

/-! ## Data model -/

/-- The struct `ngx_http_autoindex_ext_loc_conf_t` (source lines 20-24).
`ngx_flag_t` is a signed machine word; `stylesheet` is an `ngx_str_t`. -/
structure ngx_http_autoindex_ext_loc_conf_t where
  enabled : Int
  exact_size : Int
  stylesheet : List Nat
  deriving DecidableEq, Repr

/-- The struct `ngx_http_autoindex_ext_entry_t` (source lines 68-74).
`is_dir` is only ever used as a C truth value, hence a `Bool`. -/
structure ngx_http_autoindex_ext_entry_t where
  name : List Nat
  is_dir : Bool
  date : Int
  size : Int
  escape : Nat
  deriving DecidableEq, Repr

/-- The nginx constant `NGX_CONF_UNSET` (the unset marker of a flag slot). -/
def NGX_CONF_UNSET : Int := -1

/-! ## `ngx_http_autoindex_ext_number_length` (source lines 122-132) -/

/-- The loop `while (s) { size_chars++; s /= 10; }`, with a bound on the number of
iterations. -/
def number_length_loop : Nat → Int → Nat → Nat
  | 0, _, size_chars => size_chars
  | fuel + 1, s, size_chars =>
    if s ≠ 0 then number_length_loop fuel (s.tdiv 10) (size_chars + 1) else size_chars

/-- The function `ngx_http_autoindex_ext_number_length`. The loop divides `s` by ten
until it is zero, which takes at most `|number|` iterations. -/
def ngx_http_autoindex_ext_number_length (number : Int) : Nat :=
  number_length_loop number.natAbs number 0

/-! ## `ngx_sprintf` with the formats `%i` and `%i%c` (nginx core, modelled) -/

/-- The loop `do { *--p = ui64 % 10 + 0x30; } while (ui64 /= 10);` of nginx
`ngx_sprintf_num`, with a bound on the number of iterations. The digits are produced
from the least significant one and stored backwards. -/
def ngx_sprintf_num_loop : Nat → Nat → List Nat → List Nat
  | 0, _, acc => acc
  | fuel + 1, ui64, acc =>
    if ui64 / 10 ≠ 0 then ngx_sprintf_num_loop fuel (ui64 / 10) ((ui64 % 10 + 48) :: acc)
    else (ui64 % 10 + 48) :: acc

/-- Decimal conversion of an unsigned number as done by nginx `ngx_sprintf_num`
(no width, no padding). -/
def ngx_sprintf_num (ui64 : Nat) : List Nat :=
  ngx_sprintf_num_loop (ui64 + 1) ui64 []

/-- The bytes `ngx_sprintf(buf, "%i", i)` writes: a minus sign for a negative
argument, then the decimal digits of its magnitude. -/
def ngx_sprintf_i (i : Int) : List Nat :=
  if i < 0 then 45 :: ngx_sprintf_num i.natAbs else ngx_sprintf_num i.natAbs

/-- The bytes `ngx_sprintf(buf, "%i%c", i, c)` writes. -/
def ngx_sprintf_i_c (i : Int) (c : Nat) : List Nat :=
  ngx_sprintf_i i ++ [c]

/-! ## The scaled size computation (source lines 300-316 and 388-404)

The estimation loop and the emission loop contain the same statements, character
for character; they are embedded once. -/

/-- The pair `(size, scale)` computed from `s = entry[i].size` when `exact_size` is
off. `scale` is the byte of the unit suffix, or 0 for none. The variable `size` is a
`size_t` that holds an `ngx_int_t` and is read back as one; the value is given as
that `ngx_int_t`. -/
def scaled_size (s : Int) : Int × Nat :=
  if s > 1024 * 1024 - 1 then
    let size := s.tdiv (1024 * 1024)
    let size := if s.tmod (1024 * 1024) > 1024 * 1024 / 2 - 1 then size + 1 else size
    (size, 77)
  else if s > 9999 then
    let size := s.tdiv 1024
    let size := if s.tmod 1024 > 511 then size + 1 else size
    (size, 75)
  else
    (s, 0)

/-! ## `ngx_escape_uri` (nginx core, modelled)

The escape bitmap `uri_component` of the nginx core is not part of this repository;
it is a parameter `esc`, where `esc c` says that byte `c` has to be escaped. -/

/-- One digit of the table `0123456789ABCDEF`. -/
def hex_digit (d : Nat) : Nat := if d < 10 then 48 + d else 55 + d

/-- The call `ngx_escape_uri(NULL, src, size, type)`: the number of bytes of `src`
that have to be escaped. -/
def ngx_escape_uri_count (esc : Nat → Bool) : List Nat → Nat
  | [] => 0
  | c :: src => (if esc c then 1 else 0) + ngx_escape_uri_count esc src

/-- The call `ngx_escape_uri(dst, src, size, type)` with a destination: the bytes
written to `dst`. An escaped byte becomes a percent sign and two hex digits. -/
def ngx_escape_uri_write (esc : Nat → Bool) : List Nat → List Nat
  | [] => []
  | c :: src =>
    (if esc c then [37, hex_digit (c / 16), hex_digit (c % 16)] else [c])
      ++ ngx_escape_uri_write esc src

/-- The escape bitmap `uri_component` of current nginx releases, as a predicate:
everything is escaped but ASCII letters, digits and the four marks `-._~`. It is
used for concrete examples only. -/
def uri_component (c : Nat) : Bool :=
  !((48 ≤ c && c ≤ 57) || (65 ≤ c && c ≤ 90) || (97 ≤ c && c ≤ 122)
    || c = 45 || c = 46 || c = 95 || c = 126)

/-! ## The size estimation (source lines 261-325) -/

/-- The literal whose `sizeof - 1` is added once per entry (source lines 287-290). -/
def row_literal : List Nat :=
  lit "\t\t<tr>\r\n" ++
  lit "\t\t\t<td><a href=\"\"></a></td>\r\n" ++
  lit "\t\t\t<td></td>\r\n" ++
  lit "\t\t</tr>\r\n"

/-- The amount one iteration of the estimation loop adds to `response_size`
(source lines 285-324). -/
def entry_response_size (conf : ngx_http_autoindex_ext_loc_conf_t)
    (e : ngx_http_autoindex_ext_entry_t) : Nat :=
  (e.name.length + e.escape) + e.name.length + row_literal.length +
    (if e.is_dir then 3
     else if conf.exact_size ≠ 0 then ngx_http_autoindex_ext_number_length e.size
     else
      let p := scaled_size e.size
      if p.2 ≠ 0 then 1 + ngx_http_autoindex_ext_number_length p.1
      else ngx_http_autoindex_ext_number_length p.1)

/-- The estimation loop over `entries` (source lines 282-325), started from the
value `response_size` has before it. -/
def entries_response_size (conf : ngx_http_autoindex_ext_loc_conf_t) :
    List ngx_http_autoindex_ext_entry_t → Nat → Nat
  | [], response_size => response_size
  | e :: es, response_size =>
    entries_response_size conf es (response_size + entry_response_size conf e)

/-- The value of `response_size` when the buffer is allocated (source lines 261-325),
for the configuration, the request URI and the collected entries. -/
def response_size (conf : ngx_http_autoindex_ext_loc_conf_t) (uri : List Nat)
    (entries : List ngx_http_autoindex_ext_entry_t) : Nat :=
  let response_size := 0
  let response_size := response_size + ngx_http_autoindex_ext_header1.length
  let response_size := response_size + ngx_http_autoindex_ext_header2.length
  let response_size := response_size + ngx_http_autoindex_ext_footer.length
  let response_size :=
    if uri.length ≠ 1 then response_size + ngx_http_autoindex_ext_back.length
    else response_size
  let response_size := response_size + (lit "\t<title>Index of </title>\r\n").length
  let response_size := response_size + uri.length
  let response_size :=
    if conf.stylesheet.length > 1 then
      response_size + conf.stylesheet.length +
        (lit "\t<link rel=\"stylesheet\" type=\"text/css\" href=\"\">\r\n").length
    else response_size
  entries_response_size conf entries response_size

/-! ## The emission (source lines 343-418)

The embedding returns the bytes between `b->pos` and `b->last`, that is, everything
the handler has written; `ngx_cpymem` and `ngx_sprintf` append to it. -/

/-- The link target of a row (source lines 366-371). On the escaping path
`ngx_escape_uri` writes at `b->last` and `b->last` then moves by
`name.len + escape`, whatever was written: the bytes kept are the first
`name.len + escape` ones, and buffer bytes that were skipped without being written
are given as 0. -/
def emit_href (esc : Nat → Bool) (e : ngx_http_autoindex_ext_entry_t) : List Nat :=
  if e.escape ≠ 0 then
    let written := ngx_escape_uri_write esc e.name
    let n := e.name.length + e.escape
    (written ++ List.replicate (n - written.length) 0).take n
  else e.name

/-- The size cell of a file row (source lines 384-410). -/
def emit_size (conf : ngx_http_autoindex_ext_loc_conf_t) (s : Int) : List Nat :=
  if conf.exact_size ≠ 0 then ngx_sprintf_i s
  else
    let p := scaled_size s
    if p.2 ≠ 0 then ngx_sprintf_i_c p.1 p.2 else ngx_sprintf_i p.1

/-- One iteration of the emission loop (source lines 363-414). -/
def emit_entry (esc : Nat → Bool) (conf : ngx_http_autoindex_ext_loc_conf_t)
    (e : ngx_http_autoindex_ext_entry_t) : List Nat :=
  lit "\t\t<tr>\r\n\t\t\t<td>" ++
  lit "<a href=\"" ++
  emit_href esc e ++
  (if e.is_dir then lit "/" else []) ++
  lit "\">" ++
  e.name ++
  (if e.is_dir then lit "/" else []) ++
  lit "</a>" ++
  lit "</td>\r\n\t\t\t<td>" ++
  (if e.is_dir then lit "-" else emit_size conf e.size) ++
  lit "</td>\r\n" ++
  lit "\t\t</tr>\r\n"

/-- The emission loop over `entries` (source lines 360-415). -/
def emit_entries (esc : Nat → Bool) (conf : ngx_http_autoindex_ext_loc_conf_t) :
    List ngx_http_autoindex_ext_entry_t → List Nat
  | [] => []
  | e :: es => emit_entry esc conf e ++ emit_entries esc conf es

/-- Everything written before the parent-directory row (source lines 344-353):
first header, title, optional stylesheet link, second header. -/
def emit_head (conf : ngx_http_autoindex_ext_loc_conf_t) (uri : List Nat) : List Nat :=
  ngx_http_autoindex_ext_header1 ++
  lit "\t<title>Index of " ++
  uri ++
  lit "</title>\r\n" ++
  (if conf.stylesheet.length > 1 then
    lit "\t<link rel=\"stylesheet\" type=\"text/css\" href=\"" ++
    conf.stylesheet ++
    lit "\">\r\n"
   else []) ++
  ngx_http_autoindex_ext_header2

/-- The bytes the handler writes into the response buffer (source lines 343-418),
for the entries in the order in which the loop visits them. -/
def emit (esc : Nat → Bool) (conf : ngx_http_autoindex_ext_loc_conf_t) (uri : List Nat)
    (entries : List ngx_http_autoindex_ext_entry_t) : List Nat :=
  emit_head conf uri ++
  (if uri.length ≠ 1 then ngx_http_autoindex_ext_back else []) ++
  emit_entries esc conf entries ++
  ngx_http_autoindex_ext_footer

/-! ## Configuration (source lines 437-461) -/

/-- The nginx macro `ngx_conf_merge_value(conf, prev, default)`: an unset child
value is replaced by the parent value, or by the default when that is unset too.
The result is the new value of `conf`. -/
def ngx_conf_merge_value (conf prev dflt : Int) : Int :=
  if conf = NGX_CONF_UNSET then (if prev = NGX_CONF_UNSET then dflt else prev) else conf

/-- The function `ngx_http_autoindex_ext_create_loc_conf`. `ngx_pcalloc` returns
zeroed memory (so `stylesheet` is the empty string) or fails, in which case the
function returns `NGX_CONF_ERROR`, given as `none`. -/
def ngx_http_autoindex_ext_create_loc_conf (pcalloc_ok : Bool) :
    Option ngx_http_autoindex_ext_loc_conf_t :=
  if pcalloc_ok then
    some { enabled := NGX_CONF_UNSET, exact_size := NGX_CONF_UNSET, stylesheet := [] }
  else none

/-- The function `ngx_http_autoindex_ext_merge_loc_conf`: the child configuration
after the merge with the parent `prev`. It always returns `NGX_CONF_OK`. -/
def ngx_http_autoindex_ext_merge_loc_conf
    (prev conf : ngx_http_autoindex_ext_loc_conf_t) : ngx_http_autoindex_ext_loc_conf_t :=
  { conf with enabled := ngx_conf_merge_value conf.enabled prev.enabled 0 }

/-! ## The comparator (source lines 107-120) -/

/-- The C function `strcmp` behind `ngx_strcmp`, on two names that are followed by a
NUL byte in memory (`name.data` is allocated with one extra byte and NUL-terminated by
`ngx_cpystrn`). The bytes are compared as unsigned values up to the first difference
or a common NUL; the result is the difference of the two bytes that decided. -/
def ngx_strcmp : List Nat → List Nat → Int
  | [], [] => 0
  | [], c2 :: _ => 0 - (c2 : Int)
  | c1 :: _, [] => (c1 : Int) - 0
  | c1 :: s1, c2 :: s2 =>
    if c1 ≠ c2 then (c1 : Int) - (c2 : Int)
    else if c1 = 0 then 0
    else ngx_strcmp s1 s2

/-- The function `ngx_http_autoindex_ext_cmp_entries`. -/
def ngx_http_autoindex_ext_cmp_entries
    (first second : ngx_http_autoindex_ext_entry_t) : Int :=
  if first.is_dir && !second.is_dir then -1
  else if !first.is_dir && second.is_dir then 1
  else ngx_strcmp first.name second.name

/-- Byte-wise lexicographic comparison of two byte strings, as the specification
words it: bytes are compared as unsigned numbers, without case folding or locale, and
a proper initial segment comes first. The result is -1, 0 or 1. -/
def bytewise_compare : List Nat → List Nat → Int
  | [], [] => 0
  | [], _ :: _ => -1
  | _ :: _, [] => 1
  | a :: as, b :: bs =>
    if a < b then -1 else if b < a then 1 else bytewise_compare as bs

/-! ## The collection loop (source lines 198-255)

The directory API of nginx (`ngx_read_dir`, `ngx_de_info`, `ngx_de_link_info`, the
`ngx_de_*` accessors) and the pool allocator are outside this repository. A directory
stream is given by the answers these calls return. -/

/-- The errno value `NGX_ENOMOREFILES` (0 on the platforms nginx has `readdir` on). -/
def NGX_ENOMOREFILES : Nat := 0

/-- The errno value `NGX_ENOENT`. -/
def NGX_ENOENT : Nat := 2

/-- The status `NGX_HTTP_INTERNAL_SERVER_ERROR`. -/
def NGX_HTTP_INTERNAL_SERVER_ERROR : Int := 500

/-- The metadata the handler reads through `ngx_de_is_dir`, `ngx_de_mtime` and
`ngx_de_size`. -/
structure ngx_file_info_t where
  is_dir : Bool
  mtime : Int
  size : Int
  deriving DecidableEq, Repr

/-- The answer of `ngx_de_info` or `ngx_de_link_info`: the metadata now stored in
`dir`, or `NGX_FILE_ERROR` together with the value of `ngx_errno`. -/
inductive ngx_de_info_result where
  | ok (info : ngx_file_info_t)
  | file_error (errno : Nat)
  deriving DecidableEq, Repr

/-- One directory entry as a successful `ngx_read_dir` presents it, with the answers
to the calls the loop may make while it handles that entry. `name` holds the bytes of
`ngx_de_name` before its terminating NUL, so `ngx_de_namelen` is its length and
`ngx_cpystrn` copies it whole. -/
structure ngx_dir_entry_t where
  name : List Nat
  valid_info : Bool
  info : ngx_file_info_t
  de_info : ngx_de_info_result
  de_link_info : ngx_de_info_result
  array_push_ok : Bool
  palloc_ok : Bool
  deriving DecidableEq, Repr

/-- A directory stream: the entries for which `ngx_read_dir` succeeds, in order, and
the value of `ngx_errno` when it finally returns `NGX_ERROR`. -/
structure ngx_dir_t where
  entries : List ngx_dir_entry_t
  errno : Nat
  deriving DecidableEq, Repr

/-- What the metadata block (source lines 217-233) does with one entry. -/
inductive metadata_outcome where
  | skip
  | internal_error
  | info (i : ngx_file_info_t)
  deriving DecidableEq, Repr

/-- The metadata block (source lines 217-233): `continue`, `return
NGX_HTTP_INTERNAL_SERVER_ERROR`, or fall through with the metadata in `dir`. -/
def resolve_metadata (d : ngx_dir_entry_t) : metadata_outcome :=
  if !d.valid_info then
    match d.de_info with
    | .file_error errno =>
      if errno ≠ NGX_ENOENT then .skip
      else
        match d.de_link_info with
        | .file_error _ => .internal_error
        | .ok i => .info i
    | .ok i => .info i
  else .info d.info

/-- The result of the collection loop: a status the handler returns at once, or the
array `entries` at the `break`. -/
inductive collect_result where
  | status (rc : Int)
  | entries (es : List ngx_http_autoindex_ext_entry_t)
  deriving DecidableEq, Repr

/-- The entry the loop stores for a directory entry and its metadata
(source lines 239-254). -/
def make_entry (esc : Nat → Bool) (d : ngx_dir_entry_t) (i : ngx_file_info_t) :
    ngx_http_autoindex_ext_entry_t :=
  { name := d.name
    is_dir := i.is_dir
    date := i.mtime
    size := i.size
    escape := 2 * ngx_escape_uri_count esc d.name }

/-- The loop `for(;;)` of source lines 199-255 over the remaining directory entries,
with the array collected so far. The test `ngx_de_name(&dir)[0] == 0x2e` reads the
first byte of the name (the terminating NUL when the name is empty). -/
def collect_loop (esc : Nat → Bool) (errno : Nat) :
    List ngx_dir_entry_t → List ngx_http_autoindex_ext_entry_t → collect_result
  | [], entries =>
    if errno ≠ NGX_ENOMOREFILES then .status NGX_HTTP_INTERNAL_SERVER_ERROR
    else .entries entries
  | d :: rest, entries =>
    if d.name.head? = some 46 then collect_loop esc errno rest entries
    else
      match resolve_metadata d with
      | .skip => collect_loop esc errno rest entries
      | .internal_error => .status NGX_HTTP_INTERNAL_SERVER_ERROR
      | .info i =>
        if !d.array_push_ok then .status NGX_HTTP_INTERNAL_SERVER_ERROR
        else if !d.palloc_ok then .status NGX_HTTP_INTERNAL_SERVER_ERROR
        else collect_loop esc errno rest (entries ++ [make_entry esc d i])

/-- The collection of a whole directory stream into the freshly initialised array. -/
def collect (esc : Nat → Bool) (dir : ngx_dir_t) : collect_result :=
  collect_loop esc dir.errno dir.entries []

/-! ## The sort (source lines 327-332) -/

/-- The call `ngx_qsort(entry, nelts, size, cmp)`, which is the C library `qsort`
and outside this repository: it rearranges the array into an order in which the
comparator never puts a later element before an earlier one. The arrangement is
given here by insertion, one element after the other. -/
def ngx_qsort (entries : List ngx_http_autoindex_ext_entry_t) :
    List ngx_http_autoindex_ext_entry_t :=
  List.insertionSort (fun a b => ngx_http_autoindex_ext_cmp_entries a b ≤ 0) entries

/-- The array `entries` after source lines 327-332: sorted when it holds more than
one element. -/
def sort_entries (entries : List ngx_http_autoindex_ext_entry_t) :
    List ngx_http_autoindex_ext_entry_t :=
  if entries.length > 1 then ngx_qsort entries else entries

/-! ## The handler (source lines 134-435)

The request, the answers of the nginx core to the calls the handler makes, and the
result of the handler: the returned status, the response header fields as the handler
leaves them, and the calls it has made, in order. -/

/-- The status `NGX_OK`. -/
def NGX_OK : Int := 0

/-- The status `NGX_ERROR`. -/
def NGX_ERROR : Int := -1

/-- The status `NGX_DECLINED`. -/
def NGX_DECLINED : Int := -5

/-- The status `NGX_HTTP_OK`. -/
def NGX_HTTP_OK : Int := 200

/-- The status `NGX_HTTP_NOT_ALLOWED`. -/
def NGX_HTTP_NOT_ALLOWED : Int := 405

/-- The method bit `NGX_HTTP_GET`. -/
def NGX_HTTP_GET : Nat := 2

/-- The method bit `NGX_HTTP_HEAD`. -/
def NGX_HTTP_HEAD : Nat := 4

/-- The fields of `r->headers_out` the handler writes. -/
structure ngx_http_headers_out_t where
  status : Int
  content_type : List Nat
  content_length_n : Int
  deriving DecidableEq, Repr

/-- The fields of `ngx_http_request_t` the handler reads. `method` is one of the
`NGX_HTTP_*` method values of nginx, each a single bit. -/
structure ngx_http_request_t where
  method : Nat
  uri : List Nat
  headers_out : ngx_http_headers_out_t
  deriving DecidableEq, Repr

/-- The answers of the nginx core to the calls of the handler. Every `_ok` field
says that the call of that name succeeds; `header_only` is `r->header_only` when
`ngx_http_send_header` has returned. -/
structure ngx_core_t where
  loc_conf : Option ngx_http_autoindex_ext_loc_conf_t
  discard_request_body : Int
  send_header : Int
  header_only : Bool
  array_init_ok : Bool
  map_uri_to_path_ok : Bool
  open_dir_ok : Bool
  palloc_ok : Bool
  dir : ngx_dir_t
  close_dir_ok : Bool
  create_temp_buf_ok : Bool
  output_filter : Int
  deriving DecidableEq, Repr

/-- A call of the handler into the nginx core. `send_header` carries the header
fields at the time of the call, `create_temp_buf` the requested size, and
`output_filter` the bytes between `b->pos` and `b->last` of the buffer handed over. -/
inductive ngx_call where
  | discard_request_body
  | send_header (headers_out : ngx_http_headers_out_t)
  | array_init
  | map_uri_to_path
  | open_dir
  | palloc
  | read_dir
  | close_dir
  | create_temp_buf (size : Nat)
  | output_filter (body : List Nat)
  deriving DecidableEq, Repr

/-- What the handler leaves behind when it returns. -/
structure handler_result where
  rc : Int
  headers_out : ngx_http_headers_out_t
  calls : List ngx_call
  deriving DecidableEq, Repr

/-- The second half of the handler, from the array initialisation on
(source lines 181-434), with the header fields `h` and the calls `calls` made so
far. -/
def handler_body (esc : Nat → Bool) (core : ngx_core_t)
    (conf : ngx_http_autoindex_ext_loc_conf_t) (uri : List Nat)
    (h : ngx_http_headers_out_t) (calls : List ngx_call) : handler_result :=
  let calls := calls ++ [.array_init]
  if !core.array_init_ok then ⟨NGX_HTTP_INTERNAL_SERVER_ERROR, h, calls⟩ else
  let calls := calls ++ [.map_uri_to_path]
  if !core.map_uri_to_path_ok then ⟨NGX_HTTP_INTERNAL_SERVER_ERROR, h, calls⟩ else
  let calls := calls ++ [.open_dir]
  if !core.open_dir_ok then ⟨NGX_HTTP_INTERNAL_SERVER_ERROR, h, calls⟩ else
  let calls := calls ++ [.palloc]
  if !core.palloc_ok then ⟨NGX_HTTP_INTERNAL_SERVER_ERROR, h, calls⟩ else
  let calls := calls ++ [.read_dir]
  match collect esc core.dir with
  | .status rc => ⟨rc, h, calls⟩
  | .entries entries =>
    let calls := calls ++ [.close_dir]
    if !core.close_dir_ok then ⟨NGX_HTTP_INTERNAL_SERVER_ERROR, h, calls⟩ else
    let size := response_size conf uri entries
    let entries := sort_entries entries
    let calls := calls ++ [.create_temp_buf size]
    if !core.create_temp_buf_ok then ⟨NGX_HTTP_INTERNAL_SERVER_ERROR, h, calls⟩ else
    let body := emit esc conf uri entries
    let h := { h with status := NGX_HTTP_OK, content_length_n := size }
    let rc := core.send_header
    let calls := calls ++ [.send_header h]
    if rc = NGX_ERROR ∨ rc > NGX_OK ∨ core.header_only then ⟨rc, h, calls⟩ else
    ⟨core.output_filter, h, calls ++ [.output_filter body]⟩

/-- The function `ngx_http_autoindex_ext_handler`. The test of the last URI byte
reads `r->uri.data[r->uri.len - 1]`; nginx request URIs are never empty, and for an
empty one the byte read lies outside the string and is taken not to be a slash. -/
def ngx_http_autoindex_ext_handler (esc : Nat → Bool) (core : ngx_core_t)
    (r : ngx_http_request_t) : handler_result :=
  match core.loc_conf with
  | none => ⟨NGX_HTTP_INTERNAL_SERVER_ERROR, r.headers_out, []⟩
  | some conf =>
    if conf.enabled = 0 then ⟨NGX_DECLINED, r.headers_out, []⟩ else
    if r.uri.getLast? ≠ some 47 then ⟨NGX_DECLINED, r.headers_out, []⟩ else
    if r.method &&& (NGX_HTTP_GET ||| NGX_HTTP_HEAD) = 0 then
      ⟨NGX_HTTP_NOT_ALLOWED, r.headers_out, []⟩ else
    let rc := core.discard_request_body
    let calls := [ngx_call.discard_request_body]
    if rc ≠ NGX_OK then ⟨rc, r.headers_out, calls⟩ else
    let h := { r.headers_out with content_type := lit "text/html" }
    if r.method = NGX_HTTP_HEAD then
      let h := { h with status := NGX_HTTP_OK }
      ⟨core.send_header, h, calls ++ [.send_header h]⟩
    else handler_body esc core conf r.uri h calls

/-! ## Percent-decoding, as the specification words it -/

/-- The value of a hexadecimal digit given in ASCII, if it is one. -/
def hex_value (c : Nat) : Option Nat :=
  if 48 ≤ c ∧ c ≤ 57 then some (c - 48)
  else if 65 ≤ c ∧ c ≤ 70 then some (c - 55)
  else if 97 ≤ c ∧ c ≤ 102 then some (c - 87)
  else none

/-- The decoding loop with a bound on the number of steps: a percent sign followed
by two hexadecimal digits stands for the byte with that value; every other byte
stands for itself. -/
def percent_decode_steps : Nat → List Nat → List Nat
  | 0, _ => []
  | _ + 1, [] => []
  | fuel + 1, c :: rest =>
    if c = 37 then
      match rest with
      | h :: l :: rest2 =>
        match hex_value h, hex_value l with
        | some a, some b => (16 * a + b) :: percent_decode_steps fuel rest2
        | _, _ => c :: percent_decode_steps fuel rest
      | _ => c :: percent_decode_steps fuel rest
    else c :: percent_decode_steps fuel rest

/-- Percent-decoding of a URI component. Every step consumes at least one byte, so
as many steps as there are bytes suffice. -/
def percent_decode (s : List Nat) : List Nat :=
  percent_decode_steps s.length s

/-! ## The directive `autoindex_ext` (source lines 27-33) -/

/-- The command `autoindex_ext` with its setter `ngx_conf_set_flag_slot` of the nginx
core at the offset of `enabled`: the argument `on` (`flag` true) stores 1 and `off`
stores 0; a flag that is already set is refused as a duplicate, given as `none`. -/
def autoindex_ext_command (conf : ngx_http_autoindex_ext_loc_conf_t) (flag : Bool) :
    Option ngx_http_autoindex_ext_loc_conf_t :=
  if conf.enabled ≠ NGX_CONF_UNSET then none
  else some { conf with enabled := if flag then 1 else 0 }

/-- The configuration of a location whose only directive is `autoindex_ext on`, under
a parent level without any directive: both levels come from
`ngx_http_autoindex_ext_create_loc_conf`, the command sets `enabled` of the child,
and the child is merged with the parent. -/
def location_with_autoindex_ext_on : Option ngx_http_autoindex_ext_loc_conf_t :=
  (ngx_http_autoindex_ext_create_loc_conf true).bind fun parent =>
    (ngx_http_autoindex_ext_create_loc_conf true).bind fun child =>
      (autoindex_ext_command child true).map fun child =>
        ngx_http_autoindex_ext_merge_loc_conf parent child

/-! ## A request and a core used in examples -/

/-- Header fields before the handler runs. -/
def fresh_headers_out : ngx_http_headers_out_t :=
  { status := 0, content_type := [], content_length_n := -1 }

/-- A core in which every call succeeds, with the given configuration and directory
stream. -/
def good_core (conf : ngx_http_autoindex_ext_loc_conf_t) (dir : ngx_dir_t) : ngx_core_t :=
  { loc_conf := some conf
    discard_request_body := NGX_OK
    send_header := NGX_OK
    header_only := false
    array_init_ok := true
    map_uri_to_path_ok := true
    open_dir_ok := true
    palloc_ok := true
    dir := dir
    close_dir_ok := true
    create_temp_buf_ok := true
    output_filter := NGX_OK }

/-! ## Decimal notation, as the specification words it -/

/-- Decimal notation of a natural number in ASCII, most significant digit first,
with zero written as the single digit 0 (stated with `Nat.digits`). -/
def decimal (n : Nat) : List Nat :=
  if n = 0 then [48] else (Nat.digits 10 n).reverse.map (· + 48)

/-! ## The configuration used in examples -/

/-- A configuration with the listing enabled, scaled sizes and no stylesheet. -/
def scaled_conf : ngx_http_autoindex_ext_loc_conf_t :=
  { enabled := 1, exact_size := 0, stylesheet := [] }

/-! ## Directory entries used in examples -/

/-- A directory entry of the given name whose `ngx_de_info` succeeds and reports a
regular file of 5 bytes. -/
def plain_entry (name : String) : ngx_dir_entry_t :=
  { name := lit name
    valid_info := false
    info := ⟨false, 0, 0⟩
    de_info := .ok ⟨false, 0, 5⟩
    de_link_info := .ok ⟨false, 0, 5⟩
    array_push_ok := true
    palloc_ok := true }

/-- A directory entry for which `ngx_de_info` fails with `NGX_ENOENT` and
`ngx_de_link_info` fails too (the entry vanished after `readdir` returned it). -/
def vanished_entry (name : String) : ngx_dir_entry_t :=
  { plain_entry name with
    de_info := .file_error NGX_ENOENT
    de_link_info := .file_error NGX_ENOENT }

/-- A directory entry for which `ngx_de_info` fails with EACCES (13). -/
def unreadable_entry (name : String) : ngx_dir_entry_t :=
  { plain_entry name with de_info := .file_error 13 }

/-- A directory entry of the given name whose `ngx_de_info` succeeds and reports a
regular file of the given size. -/
def sized_entry (name : String) (size : Int) : ngx_dir_entry_t :=
  { plain_entry name with de_info := .ok ⟨false, 0, size⟩ }

/-! ## Decimal digits: the counting loop and the printing loop -/

theorem number_length_loop_natCast (fuel : Nat) :
    ∀ (n size_chars : Nat), n ≤ fuel →
      number_length_loop fuel (n : Int) size_chars = size_chars + (Nat.digits 10 n).length := by
  induction fuel with
  | zero =>
    intro n size_chars h
    obtain rfl : n = 0 := by omega
    simp [number_length_loop]
  | succ fuel ih =>
    intro n size_chars h
    rcases Nat.eq_zero_or_pos n with rfl | hn
    · simp [number_length_loop]
    · have h0 : (n : Int) ≠ 0 := by omega
      have hdiv : (n : Int).tdiv 10 = ((n / 10 : Nat) : Int) := by
        rw [Int.tdiv_eq_ediv (by omega) (by omega)]; norm_cast
      have hle : n / 10 ≤ fuel := by omega
      rw [number_length_loop, if_pos h0, hdiv, ih _ _ hle, Nat.digits_def' (by omega) hn]
      simp only [List.length_cons]
      omega

theorem number_length_natCast (n : Nat) :
    ngx_http_autoindex_ext_number_length (n : Int) = (Nat.digits 10 n).length := by
  unfold ngx_http_autoindex_ext_number_length
  rw [number_length_loop_natCast _ _ _ (by simp)]
  simp

theorem sprintf_num_loop_eq (fuel : Nat) :
    ∀ (n : Nat) (acc : List Nat), n < fuel →
      ngx_sprintf_num_loop fuel n acc =
        (if n = 0 then [48] else ((Nat.digits 10 n).reverse.map (· + 48))) ++ acc := by
  induction fuel with
  | zero => intro n acc h; omega
  | succ fuel ih =>
    intro n acc h
    by_cases hq : n / 10 = 0
    · rw [ngx_sprintf_num_loop, if_neg (by simpa using hq)]
      have hlt : n < 10 := by omega
      rcases Nat.eq_zero_or_pos n with rfl | hn
      · simp
      · rw [if_neg (by omega), Nat.digits_def' (by omega) hn, hq]
        simp
    · have hn : 0 < n := by
        rcases Nat.eq_zero_or_pos n with rfl | hn
        · simp at hq
        · exact hn
      rw [ngx_sprintf_num_loop, if_pos hq, ih _ _ (by omega), if_neg hq, if_neg (by omega),
        Nat.digits_def' (by omega) hn]
      simp

theorem sprintf_num_eq (n : Nat) :
    ngx_sprintf_num n =
      if n = 0 then [48] else (Nat.digits 10 n).reverse.map (· + 48) := by
  unfold ngx_sprintf_num
  rw [sprintf_num_loop_eq _ _ _ (by omega)]
  simp

theorem sprintf_i_length (s : Int) (hs : 0 ≤ s) :
    (ngx_sprintf_i s).length =
      ngx_http_autoindex_ext_number_length s + (if s = 0 then 1 else 0) := by
  obtain ⟨n, rfl⟩ := Int.eq_ofNat_of_zero_le hs
  rw [number_length_natCast]
  unfold ngx_sprintf_i
  rw [if_neg (by omega), Int.natAbs_ofNat, sprintf_num_eq]
  by_cases hn : n = 0
  · subst hn; simp
  · have : (n : Int) ≠ 0 := by omega
    simp [hn, this]


theorem sprintf_i_natCast (n : Nat) : ngx_sprintf_i (n : Int) = decimal n := by
  unfold ngx_sprintf_i decimal
  rw [if_neg (by omega), Int.natAbs_ofNat, sprintf_num_eq]

theorem decimal_digit (n b : Nat) (hb : b ∈ decimal n) : 48 ≤ b ∧ b ≤ 57 := by
  unfold decimal at hb
  split at hb
  · simp at hb; omega
  · simp only [List.mem_map, List.mem_reverse] at hb
    obtain ⟨d, hd, rfl⟩ := hb
    have := Nat.digits_lt_base (by norm_num : 1 < 10) hd
    omega

theorem decimal_ne_nil (n : Nat) : decimal n ≠ [] := by
  unfold decimal
  split
  · simp
  · rename_i h
    simp [Nat.digits_ne_nil_iff_ne_zero, h]

theorem scaled_size_natCast (n : Nat) :
    scaled_size (n : Int) =
      if 1048576 ≤ n then ((((n + 524288) / 1048576 : Nat) : Int), 77)
      else if 9999 < n then ((((n + 512) / 1024 : Nat) : Int), 75)
      else ((n : Int), 0) := by
  unfold scaled_size
  have hd1 : (n : Int).tdiv (1024 * 1024) = (n : Int) / 1048576 :=
    Int.tdiv_eq_ediv (by omega) (by norm_num)
  have hm1 : (n : Int).tmod (1024 * 1024) = (n : Int) % 1048576 :=
    Int.tmod_eq_emod (by omega) (by norm_num)
  have hd2 : (n : Int).tdiv 1024 = (n : Int) / 1024 :=
    Int.tdiv_eq_ediv (by omega) (by norm_num)
  have hm2 : (n : Int).tmod 1024 = (n : Int) % 1024 :=
    Int.tmod_eq_emod (by omega) (by norm_num)
  simp only [hd1, hm1, hd2, hm2]
  by_cases h1 : 1048576 ≤ n
  · rw [if_pos (by omega), if_pos h1]
    congr 1
    push_cast
    split <;> omega
  · rw [if_neg (by omega), if_neg h1]
    by_cases h2 : 9999 < n
    · rw [if_pos (by omega), if_pos h2]
      congr 1
      push_cast
      split <;> omega
    · rw [if_neg (by omega), if_neg h2]

theorem emit_size_scaled_natCast (conf : ngx_http_autoindex_ext_loc_conf_t) (n : Nat)
    (hc : conf.exact_size = 0) :
    emit_size conf (n : Int) =
      if 1048576 ≤ n then decimal ((n + 524288) / 1048576) ++ [77]
      else if 9999 < n then decimal ((n + 512) / 1024) ++ [75]
      else decimal n := by
  unfold emit_size
  rw [if_neg (by simp [hc]), scaled_size_natCast]
  by_cases h1 : 1048576 ≤ n
  · rw [if_pos h1, if_pos h1]
    show (if (77 : Nat) ≠ 0 then _ else _) = _
    rw [if_pos (by decide), ngx_sprintf_i_c, sprintf_i_natCast]
  · rw [if_neg h1, if_neg h1]
    by_cases h2 : 9999 < n
    · rw [if_pos h2, if_pos h2]
      show (if (75 : Nat) ≠ 0 then _ else _) = _
      rw [if_pos (by decide), ngx_sprintf_i_c, sprintf_i_natCast]
    · rw [if_neg h2, if_neg h2]
      show (if (0 : Nat) ≠ 0 then _ else _) = _
      rw [if_neg (by decide), sprintf_i_natCast]

/-! ## Claims on the size cell -/

/-- C1. Estimator/emitter parity does not hold on the code: for the listing of the
root URI that consists of one regular file `z` of size 0 (scaled sizes, no
stylesheet), the emitter writes the digit `0` into the size cell, while
`ngx_http_autoindex_ext_number_length 0` is 0, so the emitter writes one byte more
than the estimated `response_size` (308 bytes into a buffer of 307). -/
theorem parity_fails_on_zero_size_file :
    ngx_http_autoindex_ext_number_length 0 = 0 ∧
    emit_size scaled_conf 0 = lit "0" ∧
    response_size scaled_conf (lit "/") [⟨lit "z", false, 0, 0, 0⟩] = 307 ∧
    (emit uri_component scaled_conf (lit "/") [⟨lit "z", false, 0, 0, 0⟩]).length = 308 := by
  set_option maxRecDepth 100000 in decide

/-- C2. The exact-size option does not default to off on the code. For a location
whose only directive is `autoindex_ext on`, under a parent without any directive, the
merge leaves `exact_size` at `NGX_CONF_UNSET` (-1), which the handler reads as true:
for a GET request for `/` on a directory that holds the file `f` of 20000 bytes, the
handler returns `NGX_OK` and the body it passes to the output filter shows the exact
count `20000` in the size cell. With `exact_size` off the same request shows `20K`. -/
theorem unset_exact_size_renders_exact :
    location_with_autoindex_ext_on =
      some { enabled := 1, exact_size := NGX_CONF_UNSET, stylesheet := [] } ∧
    location_with_autoindex_ext_on.map (fun conf =>
        let result := ngx_http_autoindex_ext_handler uri_component
          (good_core conf ⟨[sized_entry "f" 20000], NGX_ENOMOREFILES⟩)
          ⟨NGX_HTTP_GET, lit "/", fresh_headers_out⟩
        (result.rc, result.calls.getLast?)) =
      some (NGX_OK, some (.output_filter
        (ngx_http_autoindex_ext_header1 ++ lit "\t<title>Index of /</title>\r\n" ++
          ngx_http_autoindex_ext_header2 ++
          lit "\t\t<tr>\r\n\t\t\t<td><a href=\"f\">f</a></td>\r\n" ++
          lit "\t\t\t<td>20000</td>\r\n\t\t</tr>\r\n" ++
          ngx_http_autoindex_ext_footer))) ∧
    location_with_autoindex_ext_on.map (fun conf =>
        let result := ngx_http_autoindex_ext_handler uri_component
          (good_core { conf with exact_size := 0 }
            ⟨[sized_entry "f" 20000], NGX_ENOMOREFILES⟩)
          ⟨NGX_HTTP_GET, lit "/", fresh_headers_out⟩
        (result.rc, result.calls.getLast?)) =
      some (NGX_OK, some (.output_filter
        (ngx_http_autoindex_ext_header1 ++ lit "\t<title>Index of /</title>\r\n" ++
          ngx_http_autoindex_ext_header2 ++
          lit "\t\t<tr>\r\n\t\t\t<td><a href=\"f\">f</a></td>\r\n" ++
          lit "\t\t\t<td>20K</td>\r\n\t\t</tr>\r\n" ++
          ngx_http_autoindex_ext_footer))) := by
  set_option maxRecDepth 100000 in decide

/-- C3, as stated, fails: in scaled mode a file of exactly 1048575 bytes is rendered
`1024K`, by the K branch, and not `1M`. -/
theorem size_1048575_renders_1024K :
    scaled_size 1048575 = (1024, 75) ∧
    emit_size scaled_conf 1048575 = lit "1024K" ∧
    emit_size scaled_conf 1048575 ≠ lit "1M" := by
  decide

/-- C3, amended. In scaled mode every file whose size is at least 1048576 bytes is
rendered in M scale: the decimal notation of the size divided by 1024*1024, plus one
when the remainder is greater than 1024*1024/2 - 1, followed by the suffix `M`; a
file of exactly 1048575 bytes is rendered with the suffix `K`, as `1024K`. -/
theorem scaled_M_from_1048576 (conf : ngx_http_autoindex_ext_loc_conf_t) (s : Int)
    (hconf : conf.exact_size = 0) :
    (1048576 ≤ s →
      emit_size conf s =
        decimal (s / (1024 * 1024) +
          (if s % (1024 * 1024) > 1024 * 1024 / 2 - 1 then 1 else 0)).toNat ++ lit "M") ∧
    emit_size conf 1048575 = lit "1024K" := by
  constructor
  · intro hs
    obtain ⟨n, rfl⟩ := Int.eq_ofNat_of_zero_le (by omega : 0 ≤ s)
    rw [emit_size_scaled_natCast conf n hconf, if_pos (by omega)]
    have : ((n : Int) / (1024 * 1024) +
        (if (n : Int) % (1024 * 1024) > 1024 * 1024 / 2 - 1 then 1 else 0)).toNat
        = (n + 524288) / 1048576 := by
      split <;> omega
    rw [this]
    rfl
  · unfold emit_size
    rw [if_neg (by simp [hconf])]
    decide

/-- Witness for C3 as amended: a file of 1 MiB in the configuration `scaled_conf`. -/
theorem scaled_M_from_1048576_witness :
    scaled_conf.exact_size = 0 ∧
    ((1048576 : Int) ≤ 1048576 →
      emit_size scaled_conf 1048576 =
        decimal ((1048576 : Int) / (1024 * 1024) +
          (if (1048576 : Int) % (1024 * 1024) > 1024 * 1024 / 2 - 1 then 1 else 0)).toNat
          ++ lit "M") ∧
    emit_size scaled_conf 1048575 = lit "1024K" :=
  ⟨by decide, scaled_M_from_1048576 scaled_conf 1048576 (by decide)⟩


/-- C4, as stated, fails: in scaled mode a file of 1048064 bytes is rendered `1024K`
and not `1M`. -/
theorem size_1048064_renders_1024K :
    scaled_size 1048064 = (1024, 75) ∧
    emit_size scaled_conf 1048064 = lit "1024K" ∧
    emit_size scaled_conf 1048064 ≠ lit "1M" := by
  decide

/-- C4, amended. The K-to-M display boundary of the scaled formatter is at 1048576
bytes: in scaled mode a file of 1048063 bytes is rendered `1023K`, every file of
1048064 up to 1048575 bytes is rendered `1024K`, and a file of 1048576 bytes is
rendered `1M`. -/
theorem scaled_K_to_M_boundary (conf : ngx_http_autoindex_ext_loc_conf_t)
    (hconf : conf.exact_size = 0) :
    emit_size conf 1048063 = lit "1023K" ∧
    (∀ s : Int, 1048064 ≤ s → s ≤ 1048575 → emit_size conf s = lit "1024K") ∧
    emit_size conf 1048576 = lit "1M" := by
  have hc : ¬ conf.exact_size ≠ 0 := by simp [hconf]
  refine ⟨?_, ?_, ?_⟩
  · unfold emit_size
    rw [if_neg hc]
    decide
  · intro s h1 h2
    obtain ⟨n, rfl⟩ := Int.eq_ofNat_of_zero_le (by omega : 0 ≤ s)
    rw [emit_size_scaled_natCast conf n hconf, if_neg (by omega), if_pos (by omega)]
    have : (n + 512) / 1024 = 1024 := by omega
    rw [this, ← sprintf_i_natCast]
    decide
  · unfold emit_size
    rw [if_neg hc]
    decide

/-- Witness for C4 as amended: the configuration `scaled_conf`. -/
theorem scaled_K_to_M_boundary_witness :
    scaled_conf.exact_size = 0 ∧
    emit_size scaled_conf 1048063 = lit "1023K" ∧
    (∀ s : Int, 1048064 ≤ s → s ≤ 1048575 → emit_size scaled_conf s = lit "1024K") ∧
    emit_size scaled_conf 1048576 = lit "1M" :=
  ⟨by decide, scaled_K_to_M_boundary scaled_conf (by decide)⟩

/-- C6. Unit selection in scaled mode: every file of a non-negative size up to 9999
is rendered as the decimal notation of its byte count, which consists of digits only;
every file of a size above 9999 is rendered as the decimal notation of a number,
digits only, followed by exactly one suffix byte, which is `K` or `M`. So 9999 is
rendered `9999` and 10000 is rendered `10K`. -/
theorem scaled_unit_selection (conf : ngx_http_autoindex_ext_loc_conf_t) (s : Int)
    (hconf : conf.exact_size = 0) (hs : 0 ≤ s) :
    (s ≤ 9999 →
      emit_size conf s = decimal s.toNat ∧ ∀ b ∈ emit_size conf s, 48 ≤ b ∧ b ≤ 57) ∧
    (9999 < s →
      ∃ v c : Nat, (c = 75 ∨ c = 77) ∧ emit_size conf s = decimal v ++ [c] ∧
        ∀ b ∈ decimal v, 48 ≤ b ∧ b ≤ 57) ∧
    emit_size conf 9999 = lit "9999" ∧
    emit_size conf 10000 = lit "10K" := by
  have hc : ¬ conf.exact_size ≠ 0 := by simp [hconf]
  obtain ⟨n, rfl⟩ := Int.eq_ofNat_of_zero_le hs
  refine ⟨?_, ?_, ?_, ?_⟩
  · intro h
    rw [emit_size_scaled_natCast conf n hconf, if_neg (by omega), if_neg (by omega),
      Int.toNat_ofNat]
    exact ⟨rfl, fun b hb => decimal_digit n b hb⟩
  · intro h
    rw [emit_size_scaled_natCast conf n hconf]
    by_cases h1 : 1048576 ≤ n
    · rw [if_pos h1]
      exact ⟨_, 77, Or.inr rfl, rfl, fun b hb => decimal_digit _ b hb⟩
    · rw [if_neg h1, if_pos (by omega)]
      exact ⟨_, 75, Or.inl rfl, rfl, fun b hb => decimal_digit _ b hb⟩
  · unfold emit_size
    rw [if_neg hc]
    decide
  · unfold emit_size
    rw [if_neg hc]
    decide

/-- Witness for C6: a file of 10240 bytes. -/
theorem scaled_unit_selection_witness :
    scaled_conf.exact_size = 0 ∧ (0 : Int) ≤ 10240 ∧
    (((10240 : Int) ≤ 9999 →
      emit_size scaled_conf 10240 = decimal (10240 : Int).toNat ∧
        ∀ b ∈ emit_size scaled_conf 10240, 48 ≤ b ∧ b ≤ 57) ∧
    ((9999 : Int) < 10240 →
      ∃ v c : Nat, (c = 75 ∨ c = 77) ∧ emit_size scaled_conf 10240 = decimal v ++ [c] ∧
        ∀ b ∈ decimal v, 48 ≤ b ∧ b ≤ 57) ∧
    emit_size scaled_conf 9999 = lit "9999" ∧
    emit_size scaled_conf 10000 = lit "10K") :=
  ⟨by decide, by decide, scaled_unit_selection scaled_conf 10240 (by decide) (by decide)⟩

/-! ## The comparator -/

theorem strcmp_sign (a : List Nat) :
    ∀ b : List Nat, (∀ c ∈ a, c ≠ 0) → (∀ c ∈ b, c ≠ 0) →
      Int.sign (ngx_strcmp a b) = bytewise_compare a b := by
  induction a with
  | nil =>
    intro b _ hb
    cases b with
    | nil => simp [ngx_strcmp, bytewise_compare]
    | cons c2 s2 =>
      have h2 : c2 ≠ 0 := hb c2 (by simp)
      have hneg : (0 : Int) - (c2 : Int) < 0 := by omega
      simp only [ngx_strcmp, bytewise_compare]
      exact Int.sign_eq_neg_one_of_neg hneg
  | cons c1 s1 ih =>
    intro b ha hb
    have h1 : c1 ≠ 0 := ha c1 (by simp)
    cases b with
    | nil =>
      have hpos : (0 : Int) < (c1 : Int) - 0 := by omega
      simp only [ngx_strcmp, bytewise_compare]
      exact Int.sign_eq_one_of_pos hpos
    | cons c2 s2 =>
      simp only [ngx_strcmp, bytewise_compare]
      by_cases hne : c1 ≠ c2
      · rw [if_pos hne]
        by_cases hlt : c1 < c2
        · rw [if_pos hlt]
          exact Int.sign_eq_neg_one_of_neg (by omega)
        · rw [if_neg hlt, if_pos (by omega)]
          exact Int.sign_eq_one_of_pos (by omega)
      · have heq : c1 = c2 := by omega
        rw [if_neg hne, if_neg h1, if_neg (by omega), if_neg (by omega)]
        exact ih s2 (fun c hc => ha c (by simp [hc])) (fun c hc => hb c (by simp [hc]))

/-- C7. Sort order of `ngx_http_autoindex_ext_cmp_entries`: for all entries A and B
whose names hold no NUL byte, if A is a directory and B is a file then the comparator
result is negative for (A, B) and positive for (B, A), whatever the names are; if A
and B are of the same kind, the sign of the result is the byte-wise lexicographic
comparison of the two names. -/
theorem cmp_entries_order (A B : ngx_http_autoindex_ext_entry_t)
    (hA : ∀ c ∈ A.name, c ≠ 0) (hB : ∀ c ∈ B.name, c ≠ 0) :
    (A.is_dir = true → B.is_dir = false →
      ngx_http_autoindex_ext_cmp_entries A B < 0 ∧
      0 < ngx_http_autoindex_ext_cmp_entries B A) ∧
    (A.is_dir = B.is_dir →
      Int.sign (ngx_http_autoindex_ext_cmp_entries A B) =
        bytewise_compare A.name B.name) := by
  constructor
  · intro h1 h2
    simp [ngx_http_autoindex_ext_cmp_entries, h1, h2]
  · intro h
    have hcmp : ngx_http_autoindex_ext_cmp_entries A B = ngx_strcmp A.name B.name := by
      unfold ngx_http_autoindex_ext_cmp_entries
      cases hb : B.is_dir <;> simp [h, hb]
    rw [hcmp]
    exact strcmp_sign A.name B.name hA hB

/-- Witness for C7: the directory `b` and the file `a`. -/
theorem cmp_entries_order_witness :
    (∀ c ∈ lit "b", c ≠ 0) ∧ (∀ c ∈ lit "a", c ≠ 0) ∧
    ((true = true → false = false →
      ngx_http_autoindex_ext_cmp_entries ⟨lit "b", true, 0, 0, 0⟩ ⟨lit "a", false, 0, 7, 0⟩ < 0 ∧
      0 < ngx_http_autoindex_ext_cmp_entries ⟨lit "a", false, 0, 7, 0⟩ ⟨lit "b", true, 0, 0, 0⟩) ∧
    (true = false →
      Int.sign (ngx_http_autoindex_ext_cmp_entries
          ⟨lit "b", true, 0, 0, 0⟩ ⟨lit "a", false, 0, 7, 0⟩) =
        bytewise_compare (lit "b") (lit "a"))) :=
  ⟨by decide, by decide,
    cmp_entries_order ⟨lit "b", true, 0, 0, 0⟩ ⟨lit "a", false, 0, 7, 0⟩ (by decide) (by decide)⟩


/-! ## The collection loop -/

theorem collect_loop_append (esc : Nat → Bool) (errno : Nat) (pre : List ngx_dir_entry_t) :
    ∀ (l : List ngx_dir_entry_t) (acc : List ngx_http_autoindex_ext_entry_t),
      collect_loop esc errno (pre ++ l) acc =
        match collect_loop esc NGX_ENOMOREFILES pre acc with
        | .entries acc1 => collect_loop esc errno l acc1
        | .status rc => .status rc := by
  induction pre with
  | nil => intro l acc; simp [collect_loop]
  | cons d pre ih =>
    intro l acc
    simp only [List.cons_append, collect_loop]
    by_cases hh : d.name.head? = some 46
    · simp only [hh, if_true]; exact ih l acc
    · simp only [hh, if_false]
      cases hr : resolve_metadata d with
      | skip => exact ih l acc
      | internal_error => rfl
      | info i =>
        simp only
        cases d.array_push_ok <;> cases d.palloc_ok <;> simp [ih]

theorem collect_loop_entries (esc : Nat → Bool) (errno : Nat) (ds : List ngx_dir_entry_t) :
    ∀ (acc listing : List ngx_http_autoindex_ext_entry_t),
      collect_loop esc errno ds acc = .entries listing →
      listing = acc ++
        (ds.filter (fun d => d.name.head? ≠ some 46)).filterMap (fun d =>
          match resolve_metadata d with
          | .info i => some (make_entry esc d i)
          | _ => none) := by
  induction ds with
  | nil =>
    intro acc listing h
    simp only [collect_loop] at h
    split at h
    · cases h
    · simpa using h.symm
  | cons d ds ih =>
    intro acc listing h
    simp only [collect_loop] at h
    by_cases hh : d.name.head? = some 46
    · simp only [hh, if_true] at h
      rw [ih acc listing h]
      simp [List.filter_cons, hh]
    · simp only [hh, if_false] at h
      cases hr : resolve_metadata d with
      | skip =>
        rw [hr] at h
        rw [ih acc listing h]
        simp [List.filter_cons, hh, hr]
      | internal_error =>
        rw [hr] at h
        cases h
      | info i =>
        rw [hr] at h
        simp only at h
        split at h
        · cases h
        · split at h
          · cases h
          · rw [ih _ listing h]
            simp [List.filter_cons, hh, hr]


theorem collect_loop_completes (esc : Nat → Bool) (ds : List ngx_dir_entry_t) :
    ∀ acc : List ngx_http_autoindex_ext_entry_t,
      (∀ d ∈ ds, resolve_metadata d ≠ .internal_error ∧ d.array_push_ok = true ∧
        d.palloc_ok = true) →
      ∃ listing, collect_loop esc NGX_ENOMOREFILES ds acc = .entries listing := by
  induction ds with
  | nil => intro acc _; exact ⟨acc, by simp [collect_loop]⟩
  | cons d ds ih =>
    intro acc h
    obtain ⟨h1, h2, h3⟩ := h d (by simp)
    have hds : ∀ x ∈ ds, resolve_metadata x ≠ .internal_error ∧ x.array_push_ok = true ∧
        x.palloc_ok = true := fun x hx => h x (by simp [hx])
    simp only [collect_loop]
    by_cases hh : d.name.head? = some 46
    · simp only [hh, if_true]; exact ih acc hds
    · simp only [hh, if_false]
      cases hr : resolve_metadata d with
      | skip => exact ih acc hds
      | internal_error => exact absurd hr h1
      | info i =>
        simp only [h2, h3, Bool.not_true, Bool.false_eq_true, if_false]
        exact ih _ hds

/-- C8, as stated, fails: when the stat of an entry fails with not-found and the
link-aware lookup fails too, the collector returns the internal-server-error status
for the whole request; the file `b` that follows is never listed. -/
theorem vanished_entry_aborts_request :
    resolve_metadata (vanished_entry "a") = .internal_error ∧
    collect uri_component ⟨[vanished_entry "a", plain_entry "b"], NGX_ENOMOREFILES⟩
      = .status NGX_HTTP_INTERNAL_SERVER_ERROR ∧
    collect uri_component ⟨[plain_entry "b"], NGX_ENOMOREFILES⟩
      = .entries [⟨lit "b", false, 0, 5, 0⟩] := by
  decide

/-- C8, amended. A stat failure with an error other than not-found is recoverable:
the entry is omitted and the collection goes on, with the same result as for the
directory stream without that entry. When the stat of an entry that is not hidden
fails with not-found and the link-aware fallback lookup fails too, the collector,
once it has reached that entry, returns the internal-server-error status for the
whole request. -/
theorem stat_failure_skips_or_aborts (esc : Nat → Bool) (errno : Nat)
    (pre post : List ngx_dir_entry_t) (d : ngx_dir_entry_t) (hv : d.valid_info = false) :
    (∀ e, d.de_info = .file_error e → e ≠ NGX_ENOENT →
      collect esc ⟨pre ++ d :: post, errno⟩ = collect esc ⟨pre ++ post, errno⟩) ∧
    (∀ e acc, d.name.head? ≠ some 46 → d.de_info = .file_error NGX_ENOENT →
      d.de_link_info = .file_error e →
      collect esc ⟨pre, NGX_ENOMOREFILES⟩ = .entries acc →
      collect esc ⟨pre ++ d :: post, errno⟩ = .status NGX_HTTP_INTERNAL_SERVER_ERROR) := by
  constructor
  · intro e he hne
    have hr : resolve_metadata d = .skip := by
      simp [resolve_metadata, hv, he, hne]
    simp only [collect]
    rw [collect_loop_append, collect_loop_append esc errno pre post]
    cases collect_loop esc NGX_ENOMOREFILES pre [] with
    | status rc => rfl
    | entries acc1 =>
      simp only [collect_loop, hr]
      split <;> rfl
  · intro e acc hh he hl hpre
    have hr : resolve_metadata d = .internal_error := by
      simp [resolve_metadata, hv, he, hl]
    simp only [collect] at hpre ⊢
    rw [collect_loop_append, hpre]
    simp only [collect_loop, hr, if_neg hh]

/-- Witness for C8 as amended: the unreadable entry `x` between the files `b` and
`a`. -/
theorem stat_failure_skips_or_aborts_witness :
    (unreadable_entry "x").valid_info = false ∧
    collect uri_component
        ⟨[plain_entry "b"] ++ unreadable_entry "x" :: [plain_entry "a"], NGX_ENOMOREFILES⟩
      = collect uri_component ⟨[plain_entry "b"] ++ [plain_entry "a"], NGX_ENOMOREFILES⟩ :=
  ⟨by decide,
    (stat_failure_skips_or_aborts uri_component NGX_ENOMOREFILES [plain_entry "b"]
      [plain_entry "a"] (unreadable_entry "x") (by decide)).1 13 (by decide) (by decide)⟩

/-- C9. Hidden entries are filtered: when the collection of a directory stream ends
with a listing, that listing consists of the entries of the stream whose name does
not begin with a dot and whose metadata block ends with metadata, each one once and
in enumeration order; no name in the listing begins with a dot. The emission loop
writes one row per element of the listing, so no row is written for a hidden entry. -/
theorem collect_filters_hidden (esc : Nat → Bool) (dir : ngx_dir_t)
    (listing : List ngx_http_autoindex_ext_entry_t)
    (h : collect esc dir = .entries listing) :
    listing =
      (dir.entries.filter (fun d => d.name.head? ≠ some 46)).filterMap (fun d =>
        match resolve_metadata d with
        | .info i => some (make_entry esc d i)
        | _ => none) ∧
    ∀ e ∈ listing, e.name.head? ≠ some 46 := by
  have hl := collect_loop_entries esc dir.errno dir.entries [] listing h
  rw [List.nil_append] at hl
  refine ⟨hl, ?_⟩
  intro e he
  rw [hl, List.mem_filterMap] at he
  obtain ⟨d, hd, hde⟩ := he
  have hvis : d.name.head? ≠ some 46 := by
    have := (List.mem_filter.mp hd).2
    simpa using this
  cases hr : resolve_metadata d with
  | skip => rw [hr] at hde; cases hde
  | internal_error => rw [hr] at hde; cases hde
  | info i =>
    rw [hr] at hde
    simp only [Option.some.injEq] at hde
    rw [← hde]
    exact hvis

/-- Witness for C9: a stream with the entries `.`, `..`, `.git`, `b`, an unreadable
`x`, and `a` yields the listing `b`, `a`. -/
theorem collect_filters_hidden_witness :
    collect uri_component
        ⟨[plain_entry ".", plain_entry "..", plain_entry ".git", plain_entry "b",
          unreadable_entry "x", plain_entry "a"], NGX_ENOMOREFILES⟩
      = .entries [⟨lit "b", false, 0, 5, 0⟩, ⟨lit "a", false, 0, 5, 0⟩] ∧
    ([⟨lit "b", false, 0, 5, 0⟩, ⟨lit "a", false, 0, 5, 0⟩] :
        List ngx_http_autoindex_ext_entry_t) =
      (([plain_entry ".", plain_entry "..", plain_entry ".git", plain_entry "b",
          unreadable_entry "x", plain_entry "a"] : List ngx_dir_entry_t).filter
        (fun d => d.name.head? ≠ some 46)).filterMap (fun d =>
        match resolve_metadata d with
        | .info i => some (make_entry uri_component d i)
        | _ => none) ∧
    ∀ e ∈ ([⟨lit "b", false, 0, 5, 0⟩, ⟨lit "a", false, 0, 5, 0⟩] :
        List ngx_http_autoindex_ext_entry_t), e.name.head? ≠ some 46 :=
  ⟨by decide,
    collect_filters_hidden uri_component
      ⟨[plain_entry ".", plain_entry "..", plain_entry ".git", plain_entry "b",
        unreadable_entry "x", plain_entry "a"], NGX_ENOMOREFILES⟩
      [⟨lit "b", false, 0, 5, 0⟩, ⟨lit "a", false, 0, 5, 0⟩] (by decide)⟩


/-! ## The sections of the document -/

theorem entries_response_size_acc (conf : ngx_http_autoindex_ext_loc_conf_t)
    (es : List ngx_http_autoindex_ext_entry_t) :
    ∀ acc : Nat, entries_response_size conf es acc = acc + entries_response_size conf es 0 := by
  induction es with
  | nil => intro acc; simp [entries_response_size]
  | cons e es ih =>
    intro acc
    simp only [entries_response_size]
    rw [ih (acc + entry_response_size conf e), ih (0 + entry_response_size conf e)]
    omega

theorem uri_length_one_iff (uri : List Nat) (huri : uri.getLast? = some 47) :
    uri.length = 1 ↔ uri = lit "/" := by
  constructor
  · intro h
    match uri, h with
    | [c], _ =>
      simp only [List.getLast?_singleton, Option.some.injEq] at huri
      rw [huri]; rfl
  · intro h; rw [h]; rfl

theorem skipped_head (w rest : List Nat) (n : Nat) (hn : n ≠ 0)
    (hw : w.head? ≠ some 46) :
    ((w ++ List.replicate (n - w.length) 0).take n ++ rest).head? ≠ some 46 := by
  obtain ⟨k, rfl⟩ : ∃ k, n = k + 1 := ⟨n - 1, by omega⟩
  cases w with
  | nil =>
    simp only [List.nil_append, List.length_nil, Nat.sub_zero, List.replicate_succ,
      List.take_succ_cons, List.cons_append, List.head?_cons]
    intro h
    cases h
  | cons c t =>
    simp only [List.cons_append, List.take_succ_cons, List.head?_cons] at hw ⊢
    exact hw

theorem escape_uri_write_head (esc : Nat → Bool) (name : List Nat)
    (h : name.head? ≠ some 46) : (ngx_escape_uri_write esc name).head? ≠ some 46 := by
  cases name with
  | nil => simp [ngx_escape_uri_write]
  | cons c s =>
    have hc : c ≠ 46 := by simpa using h
    by_cases hesc : esc c = true
    · simp [ngx_escape_uri_write, hesc]
    · simp [ngx_escape_uri_write, hesc, hc]

theorem emit_href_head (esc : Nat → Bool) (e : ngx_http_autoindex_ext_entry_t)
    (rest : List Nat) (he : e.name.head? ≠ some 46) (hrest : rest.head? ≠ some 46) :
    (emit_href esc e ++ rest).head? ≠ some 46 := by
  unfold emit_href
  by_cases hz : e.escape = 0
  · rw [if_neg (by simp [hz])]
    cases hn : e.name with
    | nil => simpa using hrest
    | cons c s => rw [hn] at he; simpa using he
  · rw [if_pos hz]
    exact skipped_head _ rest _ (by omega) (escape_uri_write_head esc e.name he)

theorem back_not_prefix_of_rows (esc : Nat → Bool) (conf : ngx_http_autoindex_ext_loc_conf_t)
    (entries : List ngx_http_autoindex_ext_entry_t)
    (hvis : ∀ e ∈ entries, e.name.head? ≠ some 46) :
    ¬ (ngx_http_autoindex_ext_back <+:
        emit_entries esc conf entries ++ ngx_http_autoindex_ext_footer) := by
  have hback : ngx_http_autoindex_ext_back =
      (lit "\t\t<tr>\r\n\t\t\t<td>" ++ lit "<a href=\"") ++
        (46 :: lit "./\">Parent directory/</a></td>\r\n\t\t\t<td>-</td>\r\n\t\t</tr>\r\n") := by
    decide
  cases entries with
  | nil =>
    simp only [emit_entries, List.nil_append]
    decide
  | cons e es =>
    intro hp
    have he : e.name.head? ≠ some 46 := hvis e (by simp)
    rw [hback] at hp
    simp only [emit_entries, emit_entry, List.append_assoc] at hp
    rw [List.prefix_append_right_inj, List.prefix_append_right_inj] at hp
    obtain ⟨t, ht⟩ := hp
    have hhead := congrArg List.head? ht
    simp only [List.cons_append, List.head?_cons] at hhead
    refine emit_href_head esc e _ he ?_ hhead.symm
    cases e.is_dir
    · show some 34 ≠ some 46
      decide
    · show some 47 ≠ some 46
      decide


/-- C10. Parent-directory row: for every handled request (the URI ends in a slash),
if the URI is not exactly `/` the emitter writes the fixed parent-directory row right
after the table header, before the entry rows; if the URI is `/` the entry rows (or
the footer) follow the table header directly, and for a listing without hidden names
what follows the header does not begin with the parent-directory row. The estimator
adds the length of that row exactly when the URI is not `/`. -/
theorem parent_row_iff_not_root (esc : Nat → Bool)
    (conf : ngx_http_autoindex_ext_loc_conf_t) (uri : List Nat)
    (entries : List ngx_http_autoindex_ext_entry_t) (huri : uri.getLast? = some 47) :
    (uri ≠ lit "/" →
      emit esc conf uri entries =
        emit_head conf uri ++ ngx_http_autoindex_ext_back ++
          (emit_entries esc conf entries ++ ngx_http_autoindex_ext_footer)) ∧
    (uri = lit "/" →
      emit esc conf uri entries =
        emit_head conf uri ++
          (emit_entries esc conf entries ++ ngx_http_autoindex_ext_footer) ∧
      ((∀ e ∈ entries, e.name.head? ≠ some 46) →
        ¬ (ngx_http_autoindex_ext_back <+:
            emit_entries esc conf entries ++ ngx_http_autoindex_ext_footer))) ∧
    response_size conf uri entries =
      (if uri ≠ lit "/" then ngx_http_autoindex_ext_back.length else 0) +
        (ngx_http_autoindex_ext_header1.length + ngx_http_autoindex_ext_header2.length +
          ngx_http_autoindex_ext_footer.length +
          (lit "\t<title>Index of </title>\r\n").length + uri.length +
          (if conf.stylesheet.length > 1 then
            conf.stylesheet.length +
              (lit "\t<link rel=\"stylesheet\" type=\"text/css\" href=\"\">\r\n").length
           else 0) +
          entries_response_size conf entries 0) := by
  have hiff := uri_length_one_iff uri huri
  refine ⟨?_, ?_, ?_⟩
  · intro hne
    have hlen : uri.length ≠ 1 := fun h => hne (hiff.mp h)
    simp only [emit, if_pos hlen, List.append_assoc]
  · intro heq
    have hlen : ¬ uri.length ≠ 1 := fun h => h (hiff.mpr heq)
    refine ⟨?_, back_not_prefix_of_rows esc conf entries⟩
    simp only [emit, if_neg hlen, List.append_nil, List.append_assoc]
  · unfold response_size
    simp only []
    rw [entries_response_size_acc]
    by_cases hroot : uri = lit "/"
    · have hlen : ¬ uri.length ≠ 1 := fun h => h (hiff.mpr hroot)
      have hroot2 : ¬ uri ≠ lit "/" := fun h => h hroot
      by_cases hs : conf.stylesheet.length > 1
      · simp only [if_neg hlen, if_neg hroot2, if_pos hs]; omega
      · simp only [if_neg hlen, if_neg hroot2, if_neg hs]; omega
    · have hlen : uri.length ≠ 1 := fun h => hroot (hiff.mp h)
      by_cases hs : conf.stylesheet.length > 1
      · simp only [if_pos hlen, if_pos hroot, if_pos hs]; omega
      · simp only [if_pos hlen, if_pos hroot, if_neg hs]; omega

/-- Witness for C10: the URI `/pub/` with one directory and one file. -/
theorem parent_row_iff_not_root_witness :
    (lit "/pub/").getLast? = some 47 ∧
    emit uri_component scaled_conf (lit "/pub/")
        [⟨lit "d", true, 0, 0, 0⟩, ⟨lit "f", false, 0, 5, 0⟩] =
      emit_head scaled_conf (lit "/pub/") ++ ngx_http_autoindex_ext_back ++
        (emit_entries uri_component scaled_conf
            [⟨lit "d", true, 0, 0, 0⟩, ⟨lit "f", false, 0, 5, 0⟩] ++
          ngx_http_autoindex_ext_footer) :=
  ⟨by decide,
    (parent_row_iff_not_root uri_component scaled_conf (lit "/pub/")
      [⟨lit "d", true, 0, 0, 0⟩, ⟨lit "f", false, 0, 5, 0⟩] (by decide)).1 (by decide)⟩


/-! ## Lengths: what the emitter writes against what the estimator counts -/

theorem emit_href_length (esc : Nat → Bool) (e : ngx_http_autoindex_ext_entry_t) :
    (emit_href esc e).length = e.name.length + e.escape := by
  unfold emit_href
  by_cases hz : e.escape = 0
  · rw [if_neg (by simp [hz]), hz, Nat.add_zero]
  · rw [if_pos hz]
    simp only [List.length_take, List.length_append, List.length_replicate]
    omega

theorem emit_size_length (conf : ngx_http_autoindex_ext_loc_conf_t) (s : Int) (hs : 0 ≤ s) :
    (emit_size conf s).length =
      (if conf.exact_size ≠ 0 then ngx_http_autoindex_ext_number_length s
       else
        let p := scaled_size s
        if p.2 ≠ 0 then 1 + ngx_http_autoindex_ext_number_length p.1
        else ngx_http_autoindex_ext_number_length p.1) +
      (if s = 0 then 1 else 0) := by
  unfold emit_size
  by_cases hx : conf.exact_size ≠ 0
  · rw [if_pos hx, if_pos hx]
    exact sprintf_i_length s hs
  · rw [if_neg hx, if_neg hx]
    obtain ⟨n, rfl⟩ := Int.eq_ofNat_of_zero_le hs
    simp only [scaled_size_natCast]
    by_cases h1 : 1048576 ≤ n
    · have hv0 : ((((n + 524288) / 1048576 : Nat) : Int)) ≠ 0 := by omega
      have hn0 : (n : Int) ≠ 0 := by omega
      simp only [if_pos h1, ngx_sprintf_i_c, List.length_append, List.length_singleton]
      rw [if_pos (by decide), if_pos (by decide), List.length_append,
        sprintf_i_length _ (by omega), if_neg hv0, if_neg hn0, List.length_singleton]
      omega
    · by_cases h2 : 9999 < n
      · have hv0 : ((((n + 512) / 1024 : Nat) : Int)) ≠ 0 := by omega
        have hn0 : (n : Int) ≠ 0 := by omega
        simp only [if_neg h1, if_pos h2, ngx_sprintf_i_c, List.length_append,
          List.length_singleton]
        rw [if_pos (by decide), if_pos (by decide), List.length_append,
          sprintf_i_length _ (by omega), if_neg hv0, if_neg hn0, List.length_singleton]
        omega
      · simp only [if_neg h1, if_neg h2]
        rw [if_neg (by decide), if_neg (by decide), sprintf_i_length _ (by omega)]

theorem emit_entry_length (esc : Nat → Bool) (conf : ngx_http_autoindex_ext_loc_conf_t)
    (e : ngx_http_autoindex_ext_entry_t) (hs : 0 ≤ e.size) :
    (emit_entry esc conf e).length =
      entry_response_size conf e + (if e.is_dir = false ∧ e.size = 0 then 1 else 0) := by
  have hrow : row_literal.length = 60 := by decide
  unfold emit_entry entry_response_size
  simp only [List.length_append, emit_href_length, hrow]
  cases hd : e.is_dir
  · simp only [Bool.false_eq_true, if_false, List.length_nil, true_and]
    have hcell := emit_size_length conf e.size hs
    simp only [] at hcell
    rw [hcell]
    have h1 : (lit "\t\t<tr>\r\n\t\t\t<td>").length = 15 := by decide
    have h2 : (lit "<a href=\"").length = 9 := by decide
    have h3 : (lit "\">").length = 2 := by decide
    have h4 : (lit "</a>").length = 4 := by decide
    have h5 : (lit "</td>\r\n\t\t\t<td>").length = 14 := by decide
    have h6 : (lit "</td>\r\n").length = 7 := by decide
    have h7 : (lit "\t\t</tr>\r\n").length = 9 := by decide
    rw [h1, h2, h3, h4, h5, h6, h7]
    omega
  · simp only [if_true, Bool.true_eq_false, false_and, if_false]
    have h1 : (lit "\t\t<tr>\r\n\t\t\t<td>").length = 15 := by decide
    have h2 : (lit "<a href=\"").length = 9 := by decide
    have h3 : (lit "\">").length = 2 := by decide
    have h4 : (lit "</a>").length = 4 := by decide
    have h5 : (lit "</td>\r\n\t\t\t<td>").length = 14 := by decide
    have h6 : (lit "</td>\r\n").length = 7 := by decide
    have h7 : (lit "\t\t</tr>\r\n").length = 9 := by decide
    have h8 : (lit "/").length = 1 := by decide
    have h9 : (lit "-").length = 1 := by decide
    rw [h1, h2, h3, h4, h5, h6, h7, h8, h9]
    omega

theorem emit_entries_length (esc : Nat → Bool) (conf : ngx_http_autoindex_ext_loc_conf_t)
    (es : List ngx_http_autoindex_ext_entry_t) (hs : ∀ e ∈ es, 0 ≤ e.size) :
    (emit_entries esc conf es).length =
      entries_response_size conf es 0 +
        (es.filter (fun e => decide (e.is_dir = false ∧ e.size = 0))).length := by
  induction es with
  | nil => simp [emit_entries, entries_response_size]
  | cons e es ih =>
    have he : 0 ≤ e.size := hs e (by simp)
    have hes : ∀ x ∈ es, 0 ≤ x.size := fun x hx => hs x (by simp [hx])
    simp only [emit_entries, entries_response_size, List.length_append, List.filter_cons]
    rw [emit_entry_length esc conf e he, ih hes, entries_response_size_acc conf es
      (0 + entry_response_size conf e)]
    by_cases hz : e.is_dir = false ∧ e.size = 0
    · simp only [hz, and_self, decide_True, if_true, List.length_cons]; omega
    · simp only [hz, decide_False, if_false, Bool.false_eq_true]; omega

theorem emit_length (esc : Nat → Bool) (conf : ngx_http_autoindex_ext_loc_conf_t)
    (uri : List Nat) (es : List ngx_http_autoindex_ext_entry_t)
    (hs : ∀ e ∈ es, 0 ≤ e.size) :
    (emit esc conf uri es).length =
      response_size conf uri es +
        (es.filter (fun e => decide (e.is_dir = false ∧ e.size = 0))).length := by
  unfold emit emit_head response_size
  simp only [List.length_append]
  rw [emit_entries_length esc conf es hs]
  have h1 : (lit "\t<title>Index of ").length = 17 := by decide
  have h2 : (lit "</title>\r\n").length = 10 := by decide
  have h3 : (lit "\t<title>Index of </title>\r\n").length = 27 := by decide
  have h4 : (lit "\t<link rel=\"stylesheet\" type=\"text/css\" href=\"").length = 46 := by
    decide
  have h5 : (lit "\">\r\n").length = 4 := by decide
  have h6 : (lit "\t<link rel=\"stylesheet\" type=\"text/css\" href=\"\">\r\n").length = 50 := by
    decide
  rw [h1, h2, h3, h6]
  by_cases hu : uri.length ≠ 1 <;> by_cases hst : conf.stylesheet.length > 1
  · simp only [if_pos hu, if_pos hst, List.length_append, h4, h5]
    rw [entries_response_size_acc conf es (_ + _)]; omega
  · simp only [if_pos hu, if_neg hst, List.length_nil]
    rw [entries_response_size_acc conf es (_ + _)]; omega
  · simp only [if_neg hu, if_pos hst, List.length_append, h4, h5, List.length_nil]
    rw [entries_response_size_acc conf es (_ + _)]; omega
  · simp only [if_neg hu, if_neg hst, List.length_nil]
    rw [entries_response_size_acc conf es (_ + _)]; omega

/-! ## The guards of the handler -/

theorem single_bit_and_get_head (k : Nat) :
    2 ^ k &&& (NGX_HTTP_GET ||| NGX_HTTP_HEAD) = 0 ↔
      2 ^ k ≠ NGX_HTTP_GET ∧ 2 ^ k ≠ NGX_HTTP_HEAD := by
  have h6 : NGX_HTTP_GET ||| NGX_HTTP_HEAD = 6 := by decide
  rw [h6]
  rcases Nat.lt_or_ge k 3 with hk | hk
  · interval_cases k <;> decide
  · have hbig : 2 ^ 3 ≤ 2 ^ k := Nat.pow_le_pow_right (by norm_num) hk
    have h2 : 2 ^ k ≠ NGX_HTTP_GET := by
      intro h; rw [h] at hbig; exact absurd hbig (by decide)
    have h4 : 2 ^ k ≠ NGX_HTTP_HEAD := by
      intro h; rw [h] at hbig; exact absurd hbig (by decide)
    refine ⟨fun _ => ⟨h2, h4⟩, fun _ => ?_⟩
    apply Nat.eq_of_testBit_eq
    intro i
    simp only [Nat.testBit_and, Nat.testBit_two_pow, Nat.zero_testBit]
    by_cases hki : k = i
    · subst hki
      have hlt : (6 : Nat) < 2 ^ k := lt_of_lt_of_le (by norm_num) hbig
      simp [Nat.testBit_lt_two_pow hlt]
    · simp [hki]

/-- C11. For every request with a present configuration whose URI has a last byte
that is not a slash, the handler returns `NGX_DECLINED`, whatever the method is and
whether or not the listing is enabled; it leaves every response header field as it
was and has made no call into the nginx core, so no directory was opened. -/
theorem declines_uri_without_slash (esc : Nat → Bool) (core : ngx_core_t)
    (r : ngx_http_request_t) (conf : ngx_http_autoindex_ext_loc_conf_t)
    (c : Nat) (hconf : core.loc_conf = some conf)
    (hlast : r.uri.getLast? = some c) (hc : c ≠ 47) :
    (ngx_http_autoindex_ext_handler esc core r).rc = NGX_DECLINED ∧
    (ngx_http_autoindex_ext_handler esc core r).headers_out = r.headers_out ∧
    (ngx_http_autoindex_ext_handler esc core r).calls = [] := by
  unfold ngx_http_autoindex_ext_handler
  rw [hconf]
  have hne : r.uri.getLast? ≠ some 47 := by
    rw [hlast]
    intro h
    exact hc (Option.some.inj h)
  by_cases he : conf.enabled = 0
  · simp [he]
  · simp [he, hne]

/-- Witness for C11: a GET request for `/index.html` on an enabled location. -/
theorem declines_uri_without_slash_witness :
    (good_core scaled_conf ⟨[plain_entry "a"], NGX_ENOMOREFILES⟩).loc_conf = some scaled_conf ∧
    (lit "/index.html").getLast? = some 108 ∧ (108 : Nat) ≠ 47 ∧
    (ngx_http_autoindex_ext_handler uri_component
        (good_core scaled_conf ⟨[plain_entry "a"], NGX_ENOMOREFILES⟩)
        ⟨NGX_HTTP_GET, lit "/index.html", fresh_headers_out⟩).rc = NGX_DECLINED ∧
    (ngx_http_autoindex_ext_handler uri_component
        (good_core scaled_conf ⟨[plain_entry "a"], NGX_ENOMOREFILES⟩)
        ⟨NGX_HTTP_GET, lit "/index.html", fresh_headers_out⟩).headers_out = fresh_headers_out ∧
    (ngx_http_autoindex_ext_handler uri_component
        (good_core scaled_conf ⟨[plain_entry "a"], NGX_ENOMOREFILES⟩)
        ⟨NGX_HTTP_GET, lit "/index.html", fresh_headers_out⟩).calls = [] :=
  ⟨by decide, by decide, by decide,
    declines_uri_without_slash uri_component
      (good_core scaled_conf ⟨[plain_entry "a"], NGX_ENOMOREFILES⟩)
      ⟨NGX_HTTP_GET, lit "/index.html", fresh_headers_out⟩ scaled_conf 108
      (by decide) (by decide) (by decide)⟩

theorem collect_loop_status (esc : Nat → Bool) (errno : Nat) (ds : List ngx_dir_entry_t) :
    ∀ (acc : List ngx_http_autoindex_ext_entry_t) (rc : Int),
      collect_loop esc errno ds acc = .status rc → rc = NGX_HTTP_INTERNAL_SERVER_ERROR := by
  induction ds with
  | nil =>
    intro acc rc h
    simp only [collect_loop] at h
    split at h
    · cases h; rfl
    · cases h
  | cons d ds ih =>
    intro acc rc h
    simp only [collect_loop] at h
    split at h
    · exact ih acc rc h
    · split at h
      · exact ih acc rc h
      · cases h; rfl
      · split at h
        · cases h; rfl
        · split at h
          · cases h; rfl
          · exact ih _ rc h

theorem handler_body_rc (esc : Nat → Bool) (core : ngx_core_t)
    (conf : ngx_http_autoindex_ext_loc_conf_t) (uri : List Nat)
    (h : ngx_http_headers_out_t) (calls : List ngx_call) :
    (handler_body esc core conf uri h calls).rc = NGX_HTTP_INTERNAL_SERVER_ERROR ∨
    (handler_body esc core conf uri h calls).rc = core.send_header ∨
    (handler_body esc core conf uri h calls).rc = core.output_filter := by
  unfold handler_body
  simp only []
  split
  · exact Or.inl rfl
  split
  · exact Or.inl rfl
  split
  · exact Or.inl rfl
  split
  · exact Or.inl rfl
  split
  · rename_i rc hrc
    exact Or.inl (collect_loop_status esc _ _ _ rc hrc)
  · split
    · exact Or.inl rfl
    split
    · exact Or.inl rfl
    split
    · exact Or.inr (Or.inl rfl)
    · exact Or.inr (Or.inr rfl)

/-- C12. Only GET and HEAD are accepted: on an enabled location and for a URI that
ends in a slash, a request whose method is a single method bit other than
`NGX_HTTP_GET` and `NGX_HTTP_HEAD` gets the method-not-allowed status, with no call
made into the nginx core; a GET or HEAD request does not get it, as long as none of
`ngx_http_discard_request_body`, `ngx_http_send_header` and `ngx_http_output_filter`,
whose statuses the handler passes on, answers with that status. -/
theorem only_get_and_head_accepted (esc : Nat → Bool) (core : ngx_core_t)
    (r : ngx_http_request_t) (conf : ngx_http_autoindex_ext_loc_conf_t) (k : Nat)
    (hconf : core.loc_conf = some conf) (hen : conf.enabled ≠ 0)
    (hlast : r.uri.getLast? = some 47) (hbit : r.method = 2 ^ k) :
    (r.method ≠ NGX_HTTP_GET ∧ r.method ≠ NGX_HTTP_HEAD →
      (ngx_http_autoindex_ext_handler esc core r).rc = NGX_HTTP_NOT_ALLOWED ∧
      (ngx_http_autoindex_ext_handler esc core r).calls = []) ∧
    (r.method = NGX_HTTP_GET ∨ r.method = NGX_HTTP_HEAD →
      core.discard_request_body ≠ NGX_HTTP_NOT_ALLOWED →
      core.send_header ≠ NGX_HTTP_NOT_ALLOWED →
      core.output_filter ≠ NGX_HTTP_NOT_ALLOWED →
      (ngx_http_autoindex_ext_handler esc core r).rc ≠ NGX_HTTP_NOT_ALLOWED) := by
  have hmask := single_bit_and_get_head k
  rw [← hbit] at hmask
  have hslash : ¬ r.uri.getLast? ≠ some 47 := fun h => h hlast
  constructor
  · intro hm
    have hz : r.method &&& (NGX_HTTP_GET ||| NGX_HTTP_HEAD) = 0 := hmask.mpr hm
    unfold ngx_http_autoindex_ext_handler
    rw [hconf]
    simp only [if_neg hen, if_neg hslash, if_pos hz, and_self]
  · intro hm hd hs ho
    have hnz : ¬ r.method &&& (NGX_HTTP_GET ||| NGX_HTTP_HEAD) = 0 := by
      intro hz
      have := hmask.mp hz
      rcases hm with hg | hh
      · exact this.1 hg
      · exact this.2 hh
    unfold ngx_http_autoindex_ext_handler
    rw [hconf]
    simp only [if_neg hen, if_neg hslash, if_neg hnz]
    by_cases hrc : core.discard_request_body ≠ NGX_OK
    · rw [if_pos hrc]; exact hd
    · rw [if_neg hrc]
      by_cases hhead : r.method = NGX_HTTP_HEAD
      · rw [if_pos hhead]; exact hs
      · rw [if_neg hhead]
        rcases handler_body_rc esc core conf r.uri
          { r.headers_out with content_type := lit "text/html" }
          [ngx_call.discard_request_body] with h | h | h
        · rw [h]; decide
        · rw [h]; exact hs
        · rw [h]; exact ho

/-- Witness for C12: a POST request for `/` on an enabled location. -/
theorem only_get_and_head_accepted_witness :
    (good_core scaled_conf ⟨[], NGX_ENOMOREFILES⟩).loc_conf = some scaled_conf ∧
    scaled_conf.enabled ≠ 0 ∧ (lit "/").getLast? = some 47 ∧ (8 : Nat) = 2 ^ 3 ∧
    (ngx_http_autoindex_ext_handler uri_component (good_core scaled_conf ⟨[], NGX_ENOMOREFILES⟩)
        ⟨8, lit "/", fresh_headers_out⟩).rc = NGX_HTTP_NOT_ALLOWED ∧
    (ngx_http_autoindex_ext_handler uri_component (good_core scaled_conf ⟨[], NGX_ENOMOREFILES⟩)
        ⟨8, lit "/", fresh_headers_out⟩).calls = [] :=
  ⟨by decide, by decide, by decide, by decide,
    (only_get_and_head_accepted uri_component (good_core scaled_conf ⟨[], NGX_ENOMOREFILES⟩)
      ⟨8, lit "/", fresh_headers_out⟩ scaled_conf 3 (by decide) (by decide) (by decide)
      (by decide)).1 (by decide)⟩

/-- C13. For every HEAD request on an enabled location with a URI that ends in a
slash, whose request body was discarded successfully, the handler sets the content
type to `text/html` and the status to 200 and returns what `ngx_http_send_header`
returns; its only calls into the nginx core are `ngx_http_discard_request_body` and
`ngx_http_send_header`, so the directory is neither opened nor read and no buffer is
allocated or passed to the output filter. -/
theorem head_sends_headers_only (esc : Nat → Bool) (core : ngx_core_t)
    (r : ngx_http_request_t) (conf : ngx_http_autoindex_ext_loc_conf_t)
    (hconf : core.loc_conf = some conf) (hen : conf.enabled ≠ 0)
    (hlast : r.uri.getLast? = some 47) (hhead : r.method = NGX_HTTP_HEAD)
    (hbody : core.discard_request_body = NGX_OK) :
    (ngx_http_autoindex_ext_handler esc core r).rc = core.send_header ∧
    (ngx_http_autoindex_ext_handler esc core r).headers_out =
      { r.headers_out with content_type := lit "text/html", status := NGX_HTTP_OK } ∧
    (ngx_http_autoindex_ext_handler esc core r).calls =
      [.discard_request_body,
       .send_header { r.headers_out with content_type := lit "text/html", status := NGX_HTTP_OK }] := by
  have hslash : ¬ r.uri.getLast? ≠ some 47 := fun h => h hlast
  have hnz : ¬ r.method &&& (NGX_HTTP_GET ||| NGX_HTTP_HEAD) = 0 := by
    rw [hhead]; decide
  have hrc : ¬ core.discard_request_body ≠ NGX_OK := fun h => h hbody
  unfold ngx_http_autoindex_ext_handler
  rw [hconf]
  simp only [if_neg hen, if_neg hslash, if_neg hnz, if_neg hrc, if_pos hhead]
  exact ⟨trivial, trivial, rfl⟩

/-- Witness for C13: a HEAD request for `/pub/` on an enabled location. -/
theorem head_sends_headers_only_witness :
    (good_core scaled_conf ⟨[plain_entry "a"], NGX_ENOMOREFILES⟩).loc_conf = some scaled_conf ∧
    scaled_conf.enabled ≠ 0 ∧ (lit "/pub/").getLast? = some 47 ∧
    (good_core scaled_conf ⟨[plain_entry "a"], NGX_ENOMOREFILES⟩).discard_request_body = NGX_OK ∧
    (ngx_http_autoindex_ext_handler uri_component
        (good_core scaled_conf ⟨[plain_entry "a"], NGX_ENOMOREFILES⟩)
        ⟨NGX_HTTP_HEAD, lit "/pub/", fresh_headers_out⟩).calls =
      [.discard_request_body,
       .send_header { status := 200, content_type := lit "text/html", content_length_n := -1 }] :=
  ⟨by decide, by decide, by decide, by decide,
    (head_sends_headers_only uri_component
      (good_core scaled_conf ⟨[plain_entry "a"], NGX_ENOMOREFILES⟩)
      ⟨NGX_HTTP_HEAD, lit "/pub/", fresh_headers_out⟩ scaled_conf
      (by decide) (by decide) (by decide) rfl (by decide)).2.2⟩

/-! ## The shape of a row and of the document head -/

theorem emit_entries_eq_join (esc : Nat → Bool) (conf : ngx_http_autoindex_ext_loc_conf_t)
    (es : List ngx_http_autoindex_ext_entry_t) :
    emit_entries esc conf es = (es.map (emit_entry esc conf)).flatten := by
  induction es with
  | nil => rfl
  | cons e es ih => simp only [emit_entries, List.map_cons, List.flatten_cons, ih]

/-- C14. Row shape by kind: the emission loop writes the rows of the entries one
after the other, one row per entry of the listing. The row of a directory has a
slash after the link target and after the visible name, and its size cell is the
single byte `-`; the row of a file has no slash in either place, and its size cell is
the formatted size. -/
theorem row_shape_by_kind (esc : Nat → Bool) (conf : ngx_http_autoindex_ext_loc_conf_t)
    (entries : List ngx_http_autoindex_ext_entry_t) :
    emit_entries esc conf entries = (entries.map (emit_entry esc conf)).flatten ∧
    ∀ e ∈ entries,
      (e.is_dir = true →
        emit_entry esc conf e =
          lit "\t\t<tr>\r\n\t\t\t<td><a href=\"" ++ emit_href esc e ++ lit "/\">" ++
            e.name ++ lit "/</a></td>\r\n\t\t\t<td>" ++ lit "-" ++
            lit "</td>\r\n\t\t</tr>\r\n") ∧
      (e.is_dir = false →
        emit_entry esc conf e =
          lit "\t\t<tr>\r\n\t\t\t<td><a href=\"" ++ emit_href esc e ++ lit "\">" ++
            e.name ++ lit "</a></td>\r\n\t\t\t<td>" ++ emit_size conf e.size ++
            lit "</td>\r\n\t\t</tr>\r\n") := by
  refine ⟨emit_entries_eq_join esc conf entries, ?_⟩
  intro e _
  have h1 : lit "\t\t<tr>\r\n\t\t\t<td><a href=\"" =
      lit "\t\t<tr>\r\n\t\t\t<td>" ++ lit "<a href=\"" := by decide
  have h2 : lit "/\">" = lit "/" ++ lit "\">" := by decide
  have h3 : lit "/</a></td>\r\n\t\t\t<td>" =
      lit "/" ++ (lit "</a>" ++ lit "</td>\r\n\t\t\t<td>") := by decide
  have h4 : lit "</a></td>\r\n\t\t\t<td>" = lit "</a>" ++ lit "</td>\r\n\t\t\t<td>" := by
    decide
  have h5 : lit "</td>\r\n\t\t</tr>\r\n" = lit "</td>\r\n" ++ lit "\t\t</tr>\r\n" := by
    decide
  constructor
  · intro hd
    rw [h1, h2, h3, h5]
    simp only [emit_entry, hd, if_true, List.append_assoc]
  · intro hd
    rw [h1, h4, h5]
    simp only [emit_entry, hd, Bool.false_eq_true, if_false, List.append_assoc,
      List.nil_append]

/-- C15. Stylesheet link: when the configured stylesheet string is longer than one
byte, the emitter writes, between the title and the second header, the link fragment
with the configured string copied between its quotes; otherwise the second header
follows the title directly (and does not begin like the link fragment). The estimator
adds the length of the fragment and of the string under the same condition. -/
theorem stylesheet_link_iff (esc : Nat → Bool) (conf : ngx_http_autoindex_ext_loc_conf_t)
    (uri : List Nat) (entries : List ngx_http_autoindex_ext_entry_t) :
    (conf.stylesheet.length > 1 →
      emit esc conf uri entries =
        ngx_http_autoindex_ext_header1 ++ lit "\t<title>Index of " ++ uri ++
          lit "</title>\r\n" ++
          (lit "\t<link rel=\"stylesheet\" type=\"text/css\" href=\"" ++ conf.stylesheet ++
            lit "\">\r\n") ++
          (ngx_http_autoindex_ext_header2 ++
            ((if uri.length ≠ 1 then ngx_http_autoindex_ext_back else []) ++
              emit_entries esc conf entries ++ ngx_http_autoindex_ext_footer))) ∧
    (¬ conf.stylesheet.length > 1 →
      emit esc conf uri entries =
        ngx_http_autoindex_ext_header1 ++ lit "\t<title>Index of " ++ uri ++
          lit "</title>\r\n" ++
          (ngx_http_autoindex_ext_header2 ++
            ((if uri.length ≠ 1 then ngx_http_autoindex_ext_back else []) ++
              emit_entries esc conf entries ++ ngx_http_autoindex_ext_footer)) ∧
      ∀ rest : List Nat,
        ¬ (lit "\t<link rel=\"stylesheet\" type=\"text/css\" href=\"" <+:
            ngx_http_autoindex_ext_header2 ++ rest)) ∧
    response_size conf uri entries =
      (if conf.stylesheet.length > 1 then
        conf.stylesheet.length +
          (lit "\t<link rel=\"stylesheet\" type=\"text/css\" href=\"\">\r\n").length
       else 0) +
        (ngx_http_autoindex_ext_header1.length + ngx_http_autoindex_ext_header2.length +
          ngx_http_autoindex_ext_footer.length +
          (if uri.length ≠ 1 then ngx_http_autoindex_ext_back.length else 0) +
          (lit "\t<title>Index of </title>\r\n").length + uri.length +
          entries_response_size conf entries 0) := by
  refine ⟨?_, ?_, ?_⟩
  · intro hs
    simp only [emit, emit_head, if_pos hs, List.append_assoc]
  · intro hs
    constructor
    · simp only [emit, emit_head, if_neg hs, List.append_assoc, List.nil_append]
    · intro rest hp
      have h2 : ngx_http_autoindex_ext_header2 =
          60 :: (ngx_http_autoindex_ext_header2).tail := by decide
      have hl : lit "\t<link rel=\"stylesheet\" type=\"text/css\" href=\"" =
          9 :: (lit "\t<link rel=\"stylesheet\" type=\"text/css\" href=\"").tail := by decide
      rw [h2, hl, List.cons_append, List.cons_prefix_cons] at hp
      exact absurd hp.1 (by decide)
  · unfold response_size
    simp only []
    rw [entries_response_size_acc]
    by_cases hs : conf.stylesheet.length > 1 <;> by_cases hu : uri.length ≠ 1
    · simp only [if_pos hs, if_pos hu]; omega
    · simp only [if_pos hs, if_neg hu]; omega
    · simp only [if_neg hs, if_pos hu]; omega
    · simp only [if_neg hs, if_neg hu]; omega

/-! ## Escaping and decoding -/

theorem hex_value_hex_digit (d : Nat) (hd : d < 16) : hex_value (hex_digit d) = some d := by
  interval_cases d <;> decide

theorem escape_uri_write_length (esc : Nat → Bool) (name : List Nat) :
    (ngx_escape_uri_write esc name).length = name.length + 2 * ngx_escape_uri_count esc name := by
  induction name with
  | nil => rfl
  | cons c s ih =>
    simp only [ngx_escape_uri_write, ngx_escape_uri_count, List.length_append, ih,
      List.length_cons]
    split <;> simp <;> omega

theorem escape_uri_write_of_count_zero (esc : Nat → Bool) (name : List Nat)
    (h : ngx_escape_uri_count esc name = 0) : ngx_escape_uri_write esc name = name := by
  induction name with
  | nil => rfl
  | cons c s ih =>
    simp only [ngx_escape_uri_count] at h
    by_cases hc : esc c = true
    · simp [hc] at h
    · have hs : ngx_escape_uri_count esc s = 0 := by
        simp only [hc, Bool.false_eq_true, if_false] at h
        omega
      simp [ngx_escape_uri_write, hc, ih hs]

theorem emit_href_make_entry (esc : Nat → Bool) (d : ngx_dir_entry_t) (i : ngx_file_info_t) :
    emit_href esc (make_entry esc d i) = ngx_escape_uri_write esc d.name := by
  unfold emit_href
  simp only [make_entry]
  by_cases hz : 2 * ngx_escape_uri_count esc d.name = 0
  · rw [if_neg (by simp [hz])]
    exact (escape_uri_write_of_count_zero esc d.name (by omega)).symm
  · rw [if_pos hz]
    have hlen := escape_uri_write_length esc d.name
    rw [← hlen, Nat.sub_self, List.replicate_zero, List.append_nil, List.take_length]

theorem percent_decode_steps_write (esc : Nat → Bool) (hpct : esc 37 = true)
    (name : List Nat) :
    (∀ c ∈ name, c < 256) →
    ∀ fuel, (ngx_escape_uri_write esc name).length ≤ fuel →
      percent_decode_steps fuel (ngx_escape_uri_write esc name) = name := by
  induction name with
  | nil =>
    intro _ fuel _
    cases fuel <;> rfl
  | cons c s ih =>
    intro hb fuel hf
    have hc : c < 256 := hb c (by simp)
    have hs : ∀ x ∈ s, x < 256 := fun x hx => hb x (by simp [hx])
    by_cases hesc : esc c = true
    · simp only [ngx_escape_uri_write, hesc, if_true, List.cons_append, List.nil_append,
        List.length_cons] at hf ⊢
      obtain ⟨n, rfl⟩ : ∃ n, fuel = n + 1 := ⟨fuel - 1, by omega⟩
      have h1 : hex_value (hex_digit (c / 16)) = some (c / 16) :=
        hex_value_hex_digit _ (by omega)
      have h2 : hex_value (hex_digit (c % 16)) = some (c % 16) :=
        hex_value_hex_digit _ (by omega)
      simp only [percent_decode_steps, if_true, h1, h2]
      rw [ih hs n (by omega)]
      congr 1
      omega
    · have hne : c ≠ 37 := by
        intro h; rw [h] at hesc; exact hesc hpct
      simp only [ngx_escape_uri_write, hesc, Bool.false_eq_true, if_false, List.cons_append,
        List.nil_append, List.length_cons] at hf ⊢
      obtain ⟨n, rfl⟩ : ∃ n, fuel = n + 1 := ⟨fuel - 1, by omega⟩
      simp only [percent_decode_steps, if_neg hne]
      rw [ih hs n (by omega)]

/-- C16. Escaping round trip: for every escape table that escapes the percent sign,
and every directory entry whose name consists of bytes, percent-decoding the link
target the emitter writes for the collected entry yields the name; and the stored
escape amount is 0 if and only if the link target written is the name unchanged. -/
theorem escape_round_trip (esc : Nat → Bool) (d : ngx_dir_entry_t) (i : ngx_file_info_t)
    (hpct : esc 37 = true) (hbytes : ∀ c ∈ d.name, c < 256) :
    percent_decode (emit_href esc (make_entry esc d i)) = d.name ∧
    ((make_entry esc d i).escape = 0 ↔ emit_href esc (make_entry esc d i) = d.name) := by
  rw [emit_href_make_entry]
  constructor
  · exact percent_decode_steps_write esc hpct d.name hbytes _ (Nat.le_refl _)
  · simp only [make_entry]
    constructor
    · intro h
      exact escape_uri_write_of_count_zero esc d.name (by omega)
    · intro h
      have hlen := escape_uri_write_length esc d.name
      rw [h] at hlen
      omega

/-- Witness for C16: the name `a b%`, written as `a%20b%25`. -/
theorem escape_round_trip_witness :
    uri_component 37 = true ∧ (∀ c ∈ (plain_entry "a b%").name, c < 256) ∧
    percent_decode (emit_href uri_component
        (make_entry uri_component (plain_entry "a b%") ⟨false, 0, 5⟩)) = lit "a b%" ∧
    emit_href uri_component (make_entry uri_component (plain_entry "a b%") ⟨false, 0, 5⟩)
      = lit "a%20b%25" :=
  ⟨by decide, by decide,
    (escape_round_trip uri_component (plain_entry "a b%") ⟨false, 0, 5⟩ (by decide)
      (by decide)).1,
    by decide⟩

/-! ## The comparator as an order -/

theorem bytewise_compare_range (a : List Nat) :
    ∀ b : List Nat, bytewise_compare a b = -1 ∨ bytewise_compare a b = 0 ∨
      bytewise_compare a b = 1 := by
  induction a with
  | nil => intro b; cases b <;> simp [bytewise_compare]
  | cons x s ih =>
    intro b
    cases b with
    | nil => simp [bytewise_compare]
    | cons y t =>
      simp only [bytewise_compare]
      split
      · simp
      · split
        · simp
        · exact ih t

theorem bytewise_compare_swap (a : List Nat) :
    ∀ b : List Nat, bytewise_compare b a = - bytewise_compare a b := by
  induction a with
  | nil => intro b; cases b <;> simp [bytewise_compare]
  | cons x s ih =>
    intro b
    cases b with
    | nil => simp [bytewise_compare]
    | cons y t =>
      simp only [bytewise_compare]
      by_cases h1 : x < y
      · have h2 : ¬ y < x := by omega
        simp [h1, h2]
      · by_cases h2 : y < x
        · simp [h1, h2]
        · simp only [h1, h2, if_false]
          exact ih t

theorem bytewise_compare_eq_zero (a : List Nat) :
    ∀ b : List Nat, bytewise_compare a b = 0 → a = b := by
  induction a with
  | nil => intro b h; cases b <;> simp [bytewise_compare] at h ⊢
  | cons x s ih =>
    intro b h
    cases b with
    | nil => simp [bytewise_compare] at h
    | cons y t =>
      simp only [bytewise_compare] at h
      by_cases h1 : x < y
      · rw [if_pos h1] at h; cases h
      · by_cases h2 : y < x
        · rw [if_neg h1, if_pos h2] at h; cases h
        · rw [if_neg h1, if_neg h2] at h
          have hxy : x = y := by omega
          rw [hxy, ih t h]

theorem bytewise_compare_trans (a : List Nat) :
    ∀ b c : List Nat, bytewise_compare a b ≤ 0 → bytewise_compare b c ≤ 0 →
      bytewise_compare a c ≤ 0 := by
  induction a with
  | nil => intro b c _ _; cases c <;> simp [bytewise_compare]
  | cons x s ih =>
    intro b c hab hbc
    cases b with
    | nil => simp [bytewise_compare] at hab
    | cons y t =>
      cases c with
      | nil => simp [bytewise_compare] at hbc
      | cons z u =>
        simp only [bytewise_compare] at hab hbc ⊢
        by_cases hxy : x < y
        · have hyz : ¬ z < y := by
            intro hzy
            rw [if_neg (by omega), if_pos hzy] at hbc
            exact absurd hbc (by decide)
          rw [if_pos (by omega)]
          decide
        · by_cases hyx : y < x
          · rw [if_neg hxy, if_pos hyx] at hab
            exact absurd hab (by decide)
          · rw [if_neg hxy, if_neg hyx] at hab
            have hxy2 : x = y := by omega
            subst hxy2
            by_cases hxz : x < z
            · rw [if_pos hxz]; decide
            · by_cases hzx : z < x
              · rw [if_neg hxz, if_pos hzx] at hbc
                exact absurd hbc (by decide)
              · rw [if_neg hxz, if_neg hzx] at hbc ⊢
                exact ih t u hab hbc

theorem sign_nonpos_iff (x : Int) : Int.sign x ≤ 0 ↔ x ≤ 0 := by
  rcases lt_trichotomy x 0 with h | h | h
  · rw [Int.sign_eq_neg_one_of_neg h]; omega
  · rw [h]; simp
  · rw [Int.sign_eq_one_of_pos h]; omega

theorem cmp_same_kind (A B : ngx_http_autoindex_ext_entry_t) (h : A.is_dir = B.is_dir) :
    ngx_http_autoindex_ext_cmp_entries A B = ngx_strcmp A.name B.name := by
  unfold ngx_http_autoindex_ext_cmp_entries
  cases hb : B.is_dir <;> simp [h, hb]

/-- C17. The comparator is a total order on entries whose names hold no NUL byte:
the sign of the result for (A, B) is the negation of the sign for (B, A); results
that are not positive for (A, B) and for (B, C) give a result that is not positive
for (A, C); and the result is 0 only for entries of the same kind with identical
names. -/
theorem cmp_entries_total_order (A B C : ngx_http_autoindex_ext_entry_t)
    (hA : ∀ c ∈ A.name, c ≠ 0) (hB : ∀ c ∈ B.name, c ≠ 0) (hC : ∀ c ∈ C.name, c ≠ 0) :
    Int.sign (ngx_http_autoindex_ext_cmp_entries A B) =
      - Int.sign (ngx_http_autoindex_ext_cmp_entries B A) ∧
    (ngx_http_autoindex_ext_cmp_entries A B ≤ 0 →
      ngx_http_autoindex_ext_cmp_entries B C ≤ 0 →
      ngx_http_autoindex_ext_cmp_entries A C ≤ 0) ∧
    (ngx_http_autoindex_ext_cmp_entries A B = 0 → A.is_dir = B.is_dir ∧ A.name = B.name) := by
  have key : ∀ X Y : ngx_http_autoindex_ext_entry_t, (∀ c ∈ X.name, c ≠ 0) →
      (∀ c ∈ Y.name, c ≠ 0) →
      (X.is_dir = true ∧ Y.is_dir = false ∧ ngx_http_autoindex_ext_cmp_entries X Y = -1) ∨
      (X.is_dir = false ∧ Y.is_dir = true ∧ ngx_http_autoindex_ext_cmp_entries X Y = 1) ∨
      (X.is_dir = Y.is_dir ∧
        Int.sign (ngx_http_autoindex_ext_cmp_entries X Y) = bytewise_compare X.name Y.name) := by
    intro X Y hX hY
    cases hx : X.is_dir <;> cases hy : Y.is_dir
    · right; right
      refine ⟨rfl, ?_⟩
      rw [cmp_same_kind X Y (by rw [hx, hy])]
      exact strcmp_sign X.name Y.name hX hY
    · right; left
      simp [ngx_http_autoindex_ext_cmp_entries, hx, hy]
    · left
      simp [ngx_http_autoindex_ext_cmp_entries, hx, hy]
    · right; right
      refine ⟨rfl, ?_⟩
      rw [cmp_same_kind X Y (by rw [hx, hy])]
      exact strcmp_sign X.name Y.name hX hY
  refine ⟨?_, ?_, ?_⟩
  · rcases key A B hA hB with ⟨ha, hb, h⟩ | ⟨ha, hb, h⟩ | ⟨hk, h⟩
    · rcases key B A hB hA with ⟨hb2, _, _⟩ | ⟨_, _, h2⟩ | ⟨hk2, _⟩
      · rw [hb] at hb2; cases hb2
      · rw [h, h2]; decide
      · rw [ha, hb] at hk2; cases hk2
    · rcases key B A hB hA with ⟨_, _, h2⟩ | ⟨hb2, _, _⟩ | ⟨hk2, _⟩
      · rw [h, h2]; decide
      · rw [hb] at hb2; cases hb2
      · rw [ha, hb] at hk2; cases hk2
    · rcases key B A hB hA with ⟨hb2, ha2, _⟩ | ⟨hb2, ha2, _⟩ | ⟨_, h2⟩
      · rw [hb2, ha2] at hk; cases hk
      · rw [hb2, ha2] at hk; cases hk
      · rw [h, h2, bytewise_compare_swap B.name A.name]
  · intro hab hbc
    rcases key A B hA hB with ⟨ha, hb, _⟩ | ⟨_, _, h⟩ | ⟨hk, h⟩
    · rcases key B C hB hC with ⟨hb2, _, _⟩ | ⟨_, _, h2⟩ | ⟨hk2, _⟩
      · rw [hb] at hb2; cases hb2
      · rw [h2] at hbc; exact absurd hbc (by decide)
      · have hc : C.is_dir = false := by rw [← hk2, hb]
        simp [ngx_http_autoindex_ext_cmp_entries, ha, hc]
    · rw [h] at hab; exact absurd hab (by decide)
    · rcases key B C hB hC with ⟨hb2, hc, _⟩ | ⟨_, _, h2⟩ | ⟨hk2, h2⟩
      · have ha : A.is_dir = true := by rw [hk, hb2]
        simp [ngx_http_autoindex_ext_cmp_entries, ha, hc]
      · rw [h2] at hbc; exact absurd hbc (by decide)
      · have hab2 : bytewise_compare A.name B.name ≤ 0 := by
          rw [← h]; exact (sign_nonpos_iff _).mpr hab
        have hbc2 : bytewise_compare B.name C.name ≤ 0 := by
          rw [← h2]; exact (sign_nonpos_iff _).mpr hbc
        have hac := bytewise_compare_trans A.name B.name C.name hab2 hbc2
        rw [← sign_nonpos_iff, cmp_same_kind A C (by rw [hk, hk2]),
          strcmp_sign A.name C.name hA hC]
        exact hac
  · intro h0
    rcases key A B hA hB with ⟨_, _, h⟩ | ⟨_, _, h⟩ | ⟨hk, h⟩
    · rw [h] at h0; cases h0
    · rw [h] at h0; cases h0
    · refine ⟨hk, bytewise_compare_eq_zero A.name B.name ?_⟩
      rw [← h, h0]; rfl

/-- Witness for C17: the directory `z` and the files `a` and `b`. -/
theorem cmp_entries_total_order_witness :
    (∀ c ∈ lit "z", c ≠ 0) ∧ (∀ c ∈ lit "a", c ≠ 0) ∧ (∀ c ∈ lit "b", c ≠ 0) ∧
    Int.sign (ngx_http_autoindex_ext_cmp_entries
        ⟨lit "z", true, 0, 0, 0⟩ ⟨lit "a", false, 0, 1, 0⟩) =
      - Int.sign (ngx_http_autoindex_ext_cmp_entries
        ⟨lit "a", false, 0, 1, 0⟩ ⟨lit "z", true, 0, 0, 0⟩) :=
  ⟨by decide, by decide, by decide,
    (cmp_entries_total_order ⟨lit "z", true, 0, 0, 0⟩ ⟨lit "a", false, 0, 1, 0⟩
      ⟨lit "b", false, 0, 2, 0⟩ (by decide) (by decide) (by decide)).1⟩

/-! ## The estimate against the emission, and the order of the entries -/

/-- C18. Exact size of the gap between estimator and emitter: for every listing with
non-negative sizes, every configuration and every URI, the number of bytes the
emitter writes is the estimated `response_size` plus the number of entries that are
files of size 0. The reason is that `ngx_http_autoindex_ext_number_length` returns 0
for 0 and the number of decimal digits for every positive number. So the two agree
exactly when the listing holds no file of size 0. -/
theorem emit_exceeds_estimate_by_zero_size_files (esc : Nat → Bool)
    (conf : ngx_http_autoindex_ext_loc_conf_t) (uri : List Nat)
    (entries : List ngx_http_autoindex_ext_entry_t) (hs : ∀ e ∈ entries, 0 ≤ e.size) :
    (emit esc conf uri entries).length =
      response_size conf uri entries +
        (entries.filter (fun e => decide (e.is_dir = false ∧ e.size = 0))).length ∧
    ngx_http_autoindex_ext_number_length 0 = 0 ∧
    (∀ n : Nat, 0 < n →
      ngx_http_autoindex_ext_number_length (n : Int) = (Nat.digits 10 n).length ∧
      0 < (Nat.digits 10 n).length) ∧
    ((emit esc conf uri entries).length = response_size conf uri entries ↔
      ∀ e ∈ entries, ¬ (e.is_dir = false ∧ e.size = 0)) := by
  have hlen := emit_length esc conf uri entries hs
  refine ⟨hlen, by decide, ?_, ?_⟩
  · intro n hn
    refine ⟨number_length_natCast n, ?_⟩
    rw [Nat.digits_def' (by norm_num) hn]
    simp
  · rw [hlen]
    constructor
    · intro h e he
      have hnil : entries.filter (fun e => decide (e.is_dir = false ∧ e.size = 0)) = [] := by
        apply List.length_eq_zero.mp
        omega
      have := List.filter_eq_nil_iff.mp hnil e he
      simpa using this
    · intro h
      have hnil : entries.filter (fun e => decide (e.is_dir = false ∧ e.size = 0)) = [] := by
        apply List.filter_eq_nil_iff.mpr
        intro e he
        simpa using h e he
      rw [hnil]
      rfl

/-- Witness for C18: the directory `d`, the empty file `z` and the file `f` of 1 MiB
under the URI `/pub/`. -/
theorem emit_exceeds_estimate_by_zero_size_files_witness :
    (∀ e ∈ ([⟨lit "d", true, 0, 0, 0⟩, ⟨lit "z", false, 0, 0, 0⟩,
        ⟨lit "f", false, 0, 1048576, 0⟩] : List ngx_http_autoindex_ext_entry_t), 0 ≤ e.size) ∧
    (emit uri_component scaled_conf (lit "/pub/")
        [⟨lit "d", true, 0, 0, 0⟩, ⟨lit "z", false, 0, 0, 0⟩,
          ⟨lit "f", false, 0, 1048576, 0⟩]).length =
      response_size scaled_conf (lit "/pub/")
          [⟨lit "d", true, 0, 0, 0⟩, ⟨lit "z", false, 0, 0, 0⟩,
            ⟨lit "f", false, 0, 1048576, 0⟩] +
        (([⟨lit "d", true, 0, 0, 0⟩, ⟨lit "z", false, 0, 0, 0⟩,
            ⟨lit "f", false, 0, 1048576, 0⟩] : List ngx_http_autoindex_ext_entry_t).filter
          (fun e => decide (e.is_dir = false ∧ e.size = 0))).length :=
  ⟨by decide,
    (emit_exceeds_estimate_by_zero_size_files uri_component scaled_conf (lit "/pub/")
      [⟨lit "d", true, 0, 0, 0⟩, ⟨lit "z", false, 0, 0, 0⟩, ⟨lit "f", false, 0, 1048576, 0⟩]
      (by decide)).1⟩

theorem entries_response_size_sum (conf : ngx_http_autoindex_ext_loc_conf_t)
    (es : List ngx_http_autoindex_ext_entry_t) :
    entries_response_size conf es 0 = (es.map (entry_response_size conf)).sum := by
  induction es with
  | nil => rfl
  | cons e es ih =>
    simp only [entries_response_size, List.map_cons, List.sum_cons]
    rw [entries_response_size_acc, ih]
    omega

theorem response_size_perm (conf : ngx_http_autoindex_ext_loc_conf_t) (uri : List Nat)
    (es es2 : List ngx_http_autoindex_ext_entry_t) (h : es.Perm es2) :
    response_size conf uri es = response_size conf uri es2 := by
  unfold response_size
  simp only []
  rw [entries_response_size_acc conf es, entries_response_size_acc conf es2,
    entries_response_size_sum, entries_response_size_sum,
    (h.map (entry_response_size conf)).sum_eq]

theorem sort_entries_perm (es : List ngx_http_autoindex_ext_entry_t) :
    (sort_entries es).Perm es := by
  unfold sort_entries
  split
  · exact List.perm_insertionSort _ es
  · exact List.Perm.refl es

/-- C19. The estimate does not depend on the order of the entries: for two listings
that are permutations of each other, with the same configuration and URI, the
estimator computes the same `response_size`. In particular the size computed from
the array before the sort, which is the order the handler uses, is the size of the
sorted array, which is the one emitted. -/
theorem response_size_order_independent (conf : ngx_http_autoindex_ext_loc_conf_t)
    (uri : List Nat) (es es2 : List ngx_http_autoindex_ext_entry_t) (h : es.Perm es2) :
    response_size conf uri es = response_size conf uri es2 ∧
    response_size conf uri (sort_entries es) = response_size conf uri es := by
  exact ⟨response_size_perm conf uri es es2 h,
    response_size_perm conf uri (sort_entries es) es (sort_entries_perm es)⟩

/-- Witness for C19: the files `b` and `a` and the directory `z`, in two orders. -/
theorem response_size_order_independent_witness :
    ([⟨lit "b", false, 0, 5, 0⟩, ⟨lit "a", false, 0, 0, 0⟩, ⟨lit "z", true, 0, 0, 0⟩] :
        List ngx_http_autoindex_ext_entry_t).Perm
      [⟨lit "z", true, 0, 0, 0⟩, ⟨lit "a", false, 0, 0, 0⟩, ⟨lit "b", false, 0, 5, 0⟩] ∧
    response_size scaled_conf (lit "/")
        [⟨lit "b", false, 0, 5, 0⟩, ⟨lit "a", false, 0, 0, 0⟩, ⟨lit "z", true, 0, 0, 0⟩] =
      response_size scaled_conf (lit "/")
        [⟨lit "z", true, 0, 0, 0⟩, ⟨lit "a", false, 0, 0, 0⟩, ⟨lit "b", false, 0, 5, 0⟩] :=
  ⟨by decide,
    (response_size_order_independent scaled_conf (lit "/")
      [⟨lit "b", false, 0, 5, 0⟩, ⟨lit "a", false, 0, 0, 0⟩, ⟨lit "z", true, 0, 0, 0⟩]
      [⟨lit "z", true, 0, 0, 0⟩, ⟨lit "a", false, 0, 0, 0⟩, ⟨lit "b", false, 0, 5, 0⟩]
      (by decide)).1⟩

/-- C20. Configuration merging touches only `enabled`: after the merge the flag
`enabled` of the child is its own value if that was set, else the value of the parent
if that was set, else 0; the fields `exact_size` and `stylesheet` of the child are
what they were before the merge, whatever the parent holds, so that for a child fresh
from `ngx_http_autoindex_ext_create_loc_conf` `exact_size` stays at the unset marker
and `stylesheet` stays empty. -/
theorem merge_touches_only_enabled (prev conf : ngx_http_autoindex_ext_loc_conf_t) :
    (ngx_http_autoindex_ext_merge_loc_conf prev conf).enabled =
      (if conf.enabled ≠ NGX_CONF_UNSET then conf.enabled
       else if prev.enabled ≠ NGX_CONF_UNSET then prev.enabled
       else 0) ∧
    (ngx_http_autoindex_ext_merge_loc_conf prev conf).exact_size = conf.exact_size ∧
    (ngx_http_autoindex_ext_merge_loc_conf prev conf).stylesheet = conf.stylesheet ∧
    (∀ fresh, ngx_http_autoindex_ext_create_loc_conf true = some fresh →
      (ngx_http_autoindex_ext_merge_loc_conf prev fresh).exact_size = NGX_CONF_UNSET ∧
      (ngx_http_autoindex_ext_merge_loc_conf prev fresh).stylesheet = []) := by
  refine ⟨?_, rfl, rfl, ?_⟩
  · simp only [ngx_http_autoindex_ext_merge_loc_conf, ngx_conf_merge_value]
    by_cases h1 : conf.enabled = NGX_CONF_UNSET
    · by_cases h2 : prev.enabled = NGX_CONF_UNSET
      · simp [h1, h2]
      · simp [h1, h2]
    · simp [h1]
  · intro fresh hf
    simp only [ngx_http_autoindex_ext_create_loc_conf, if_true, Option.some.injEq] at hf
    subst hf
    exact ⟨rfl, rfl⟩

end NgxAutoindexExt
